import Mathlib

/-!
Shallow embedding of the syscall recording core (`src/record_syscall.cc`) of a
record-and-replay tracer, specialized to the X64 architecture instantiation of
the templates (word size 8 bytes, little-endian byte order).

Tracee addresses are modelled as `Nat` (null pointer = `0`), tracee memory as a
byte map `Nat → Nat`, registers as a function from argument index (1-based) to
value.  `size_t` arithmetic is ordinary `Nat` arithmetic except where the
source performs an explicit machine truncation or where a wrap-around is
observable (the scratch-cursor bump in `reg_parameter`/`mem_ptr_parameter`,
the `uint32_t`/`uint64_t` casts in `ParamSize::eval`, the signed view of the
syscall result register); there an explicit `% 2 ^ w` is applied.
Fatal assertions (`ASSERT`/`assert`/`FATAL`) are modelled as `Option` failure
(`none`).
-/

namespace RR

/-- Maximum value of a 64-bit `size_t`; `size_t(-1)` in the source, used as the
"unlimited" marker of `ParamSize`. -/
def USIZE_MAX : Nat := 2 ^ 64 - 1

/-- Reinterpret the low 64 bits of a natural number as a signed two's
complement 64-bit integer (`ssize_t` view of a register value). -/
def toInt64 (n : Nat) : Int :=
  if n % 2 ^ 64 < 2 ^ 63 then ((n % 2 ^ 64 : Nat) : Int)
  else ((n % 2 ^ 64 : Nat) : Int) - 2 ^ 64

/-- Unsigned 64-bit subtraction `a - b` (wraps modulo `2^64`), as performed on
`remote_ptr`/`uintptr_t` differences in the source. -/
def subU64 (a b : Nat) : Nat :=
  ((a % 2 ^ 64) + 2 ^ 64 - (b % 2 ^ 64)) % 2 ^ 64

/-- Read `n` bytes of little-endian memory starting at `addr` and assemble them
into an unsigned integer (each byte is taken modulo 256). -/
def readMemBytes (mem : Nat → Nat) (addr : Nat) : Nat → Nat
  | 0 => 0
  | n + 1 => (mem addr % 256) + 256 * readMemBytes mem (addr + 1) n

/-- Overwrite the single byte at `addr`. -/
def writeByte (mem : Nat → Nat) (addr v : Nat) : Nat → Nat :=
  fun a => if a = addr then v else mem a

/-- Write the `n` low-order bytes of `v` to `[addr, addr+n)`, little-endian. -/
def writeBytesLE (mem : Nat → Nat) (addr : Nat) : Nat → Nat → (Nat → Nat)
  | 0, _ => mem
  | n + 1, v => writeBytesLE (writeByte mem addr (v % 256)) (addr + 1) n (v / 256)

/-- Write the byte list `data` to consecutive addresses starting at `addr`
(as `Task::write_bytes_helper` does with a local buffer). -/
def writeList (mem : Nat → Nat) (addr : Nat) : List Nat → (Nat → Nat)
  | [] => mem
  | b :: rest => writeList (writeByte mem addr (b % 256)) (addr + 1) rest

/-- Tracee register file: `arg i` is the i-th syscall argument register
(1-based, as in `Registers::arg`), plus the syscall result register and the
stack pointer. -/
structure Regs where
  arg : Nat → Nat
  syscall_result : Nat
  sp : Nat

/-- Model of `Registers::set_arg`. -/
def Regs.set_arg (r : Regs) (i v : Nat) : Regs :=
  { r with arg := fun j => if j = i then v else r.arg j }

/-- Model of `Registers::set_syscall_result`. -/
def Regs.set_syscall_result (r : Regs) (v : Nat) : Regs :=
  { r with syscall_result := v }

/-- The externally provided tracee control interface of a `Task`, restricted to
what the recording core reads and writes: the register file, byte-addressed
memory, and the per-task scratch region installed by `init_scratch_memory`. -/
structure Task where
  regs : Regs
  mem : Nat → Nat
  scratch_ptr : Nat
  scratch_size : Nat

/-- Signed (`ssize_t`) view of the syscall result register
(`Registers::syscall_result_signed`). -/
def Task.syscall_result_signed (t : Task) : Int := toInt64 t.regs.syscall_result

/-- Model of `remote_memcpy(dst, src, n)`: copy `n` tracee bytes. -/
def Task.remote_memcpy (t : Task) (dst src n : Nat) : Task :=
  { t with mem := fun a => if dst ≤ a ∧ a < dst + n then t.mem (src + (a - dst)) else t.mem a }

/-- Model of `get_remote_ptr` (X64: read one 8-byte word). -/
def get_remote_ptr (t : Task) (addr : Nat) : Nat := readMemBytes t.mem addr 8

/-- Model of `set_remote_ptr` (X64: write one 8-byte word). -/
def set_remote_ptr (t : Task) (addr v : Nat) : Task :=
  { t with mem := writeBytesLE t.mem addr 8 v }

/-- Modes used to register a syscall memory parameter (`enum ArgMode`). -/
inductive ArgMode where
  | IN
  | OUT
  | IN_OUT
  | IN_OUT_NO_SCRATCH
deriving DecidableEq, Repr

/-- How many bytes to record for a syscall memory parameter (`struct
ParamSize`): a static `max_size`, optionally clamped after the syscall by a
dynamic size read from tracee memory (`mem_ptr`/`read_size`) or from the
syscall result register (`from_syscall`/`read_size`).  `mem_ptr = 0` is the
null pointer.  In the source the plain constructor leaves `read_size`
uninitialized; it is only ever inspected when `mem_ptr` or `from_syscall` is
set, and we default it to `0`. -/
structure ParamSize where
  max_size : Nat := USIZE_MAX
  mem_ptr : Nat := 0
  read_size : Nat := 0
  from_syscall : Bool := false
deriving DecidableEq, Repr

/-- Model of `ParamSize::from_initialized_mem` for a `read_size`-byte unsigned
field at `p` (the source reads `T` from `p`; a null `p` yields size 0). -/
def ParamSize.from_initialized_mem (t : Task) (p : Nat) (rsize : Nat) : ParamSize :=
  { max_size := if p = 0 then 0 else readMemBytes t.mem p rsize,
    mem_ptr := p, read_size := rsize }

/-- Model of `ParamSize::from_mem`. -/
def ParamSize.from_mem (p : Nat) (rsize : Nat) : ParamSize :=
  { max_size := USIZE_MAX, mem_ptr := p, read_size := rsize }

/-- Model of `ParamSize::from_syscall_result` with element type of size
`rsize`. -/
def ParamSize.from_syscall_result (rsize : Nat) (max_size : Nat := USIZE_MAX) : ParamSize :=
  { max_size := max_size, read_size := rsize, from_syscall := true }

/-- Model of `ParamSize::limit_size`. -/
def ParamSize.limit_size (ps : ParamSize) (m : Nat) : ParamSize :=
  { ps with max_size := min ps.max_size m }

/-- Model of `ParamSize::is_same_source`: `other` takes its dynamic size from
the same source as `ps` (same non-null `mem_ptr`, or both from the syscall
result) with equal `read_size`. -/
def ParamSize.is_same_source (ps other : ParamSize) : Bool :=
  ((ps.mem_ptr != 0 && other.mem_ptr == ps.mem_ptr) || (ps.from_syscall && other.from_syscall))
    && (ps.read_size == other.read_size)

/-- Model of `ParamSize::eval(t, already_consumed)`.  Starts from `max_size`;
if `mem_ptr` is set, clamps by the `read_size`-byte unsigned value read there
minus `already_consumed`; if `from_syscall`, clamps by the low `read_size`
bytes of the syscall result register minus `already_consumed`.  `none` models
the fatal `ASSERT`s: unknown `read_size`, `already_consumed` exceeding a
dynamic source, and a final size still equal to `size_t(-1)`. -/
def ParamSize.eval (ps : ParamSize) (t : Task) (already_consumed : Nat) : Option Nat :=
  Option.bind
    (if ps.mem_ptr ≠ 0 then
      if ps.read_size = 4 ∨ ps.read_size = 8 then
        (let mem_size := readMemBytes t.mem ps.mem_ptr ps.read_size
         if already_consumed ≤ mem_size then
           some (min ps.max_size (mem_size - already_consumed))
         else none)
      else none
    else some ps.max_size)
    (fun s =>
      Option.bind
        (if ps.from_syscall then
          if ps.read_size = 4 ∨ ps.read_size = 8 then
            (let syscall_size := t.regs.syscall_result % 2 ^ (8 * ps.read_size)
             if already_consumed ≤ syscall_size then
               some (min s (syscall_size - already_consumed))
             else none)
          else none
        else some s)
        (fun s => if s < USIZE_MAX then some s else none))

/-- Switchability decision (`enum Switchable`). -/
inductive Switchable where
  | ALLOW_SWITCH
  | PREVENT_SWITCH
deriving DecidableEq, Repr

export Switchable (ALLOW_SWITCH PREVENT_SWITCH)

/-- One registered syscall memory parameter (`TaskSyscallState::MemoryParam`).
`ptr_in_reg = 0` and `ptr_in_memory = 0` denote "unset" exactly as in the
source (argument indexes are 1-based, null pointer is 0). -/
structure MemoryParam where
  dest : Nat := 0
  scratch : Nat := 0
  num_bytes : ParamSize := {}
  ptr_in_memory : Nat := 0
  ptr_in_reg : Nat := 0
  mode : ArgMode := ArgMode.OUT
deriving DecidableEq, Repr

/-- Per-(task, in-flight-syscall) preparation/finalization state (`struct
TaskSyscallState`).  The `Task` itself is passed explicitly to each operation
rather than stored; the `exec_saved_event` and `syscall_entry_registers`
fields, used only by the execve/clone/sched_setaffinity paths, are not
modelled here. -/
structure TaskSyscallState where
  param_list : List MemoryParam := []
  scratch : Nat := 0
  expect_errno : Nat := 0
  switchable : Switchable := PREVENT_SWITCH
  preparation_done : Bool := false
  scratch_enabled : Bool := false
  record_page_below_stack_ptr : Bool := false
deriving DecidableEq, Repr

/-- Model of `TaskSyscallState::init`: cache the task's scratch pointer as the
initial allocation cursor (no-op when `preparation_done`). -/
def TaskSyscallState.init (st : TaskSyscallState) (t : Task) : TaskSyscallState :=
  if st.preparation_done then st else { st with scratch := t.scratch_ptr }

/-- Model of `align_scratch` (default amount 8): round the cursor up to the
next multiple of 8, i.e. `(p + 7) & ~7` on the low 64 bits. -/
def align_scratch (p : Nat) : Nat :=
  ((p + 7) % 2 ^ 64) - ((p + 7) % 8)

/-- Model of `TaskSyscallState::reg_parameter(arg, size, mode)`.  Returns the
updated state and the parameter's `dest` (original pointer, `0` when nothing
was registered).  The scratch-cursor bump is `uintptr_t` arithmetic, hence the
`% 2 ^ 64`. -/
def TaskSyscallState.reg_parameter (st : TaskSyscallState) (t : Task) (arg : Nat)
    (size : ParamSize) (mode : ArgMode) : TaskSyscallState × Nat :=
  if st.preparation_done then (st, 0)
  else
    let dest := t.regs.arg arg
    if dest = 0 then (st, 0)
    else if mode ≠ ArgMode.IN_OUT_NO_SCRATCH then
      let param : MemoryParam :=
        { dest := dest, scratch := st.scratch, num_bytes := size,
          ptr_in_memory := 0, ptr_in_reg := arg, mode := mode }
      ({ st with param_list := st.param_list ++ [param],
                 scratch := align_scratch ((st.scratch + size.max_size) % 2 ^ 64) }, dest)
    else
      let param : MemoryParam :=
        { dest := dest, scratch := 0, num_bytes := size,
          ptr_in_memory := 0, ptr_in_reg := 0, mode := mode }
      ({ st with param_list := st.param_list ++ [param] }, dest)

/-- Model of `TaskSyscallState::mem_ptr_parameter(addr_of_buf_ptr, size, mode)`:
like `reg_parameter` but the buffer pointer is read from tracee memory at
`addr_of_buf_ptr` and `ptr_in_memory` records that slot. -/
def TaskSyscallState.mem_ptr_parameter (st : TaskSyscallState) (t : Task)
    (addr_of_buf_ptr : Nat) (size : ParamSize) (mode : ArgMode) : TaskSyscallState × Nat :=
  if st.preparation_done then (st, 0)
  else
    let dest := get_remote_ptr t addr_of_buf_ptr
    if dest = 0 then (st, 0)
    else if mode ≠ ArgMode.IN_OUT_NO_SCRATCH then
      let param : MemoryParam :=
        { dest := dest, scratch := st.scratch, num_bytes := size,
          ptr_in_memory := addr_of_buf_ptr, ptr_in_reg := 0, mode := mode }
      ({ st with param_list := st.param_list ++ [param],
                 scratch := align_scratch ((st.scratch + size.max_size) % 2 ^ 64) }, dest)
    else
      let param : MemoryParam :=
        { dest := dest, scratch := 0, num_bytes := size,
          ptr_in_memory := addr_of_buf_ptr, ptr_in_reg := 0, mode := mode }
      ({ st with param_list := st.param_list ++ [param] }, dest)

/-- Containment test used by `relocate_pointer_to_scratch`:
`dest ≤ ptr < dest + max_size`. -/
def paramContains (param : MemoryParam) (ptr : Nat) : Bool :=
  param.dest ≤ ptr && ptr < param.dest + param.num_bytes.max_size

/-- The loop of `relocate_pointer_to_scratch`: accumulate the number of
matches (`num_relocations`) and the scratch-relative translation of the last
match (`result`). -/
def relocLoop (ptr : Nat) : List MemoryParam → Nat × Nat → Nat × Nat
  | [], acc => acc
  | param :: rest, acc =>
    relocLoop ptr rest
      (if paramContains param ptr then (acc.1 + 1, param.scratch + (ptr - param.dest)) else acc)

/-- Model of `TaskSyscallState::relocate_pointer_to_scratch`: walk the
parameter list counting parameters whose registered buffer contains `ptr`,
keeping the scratch-relative translation of the last match; the two trailing
`assert`s (zero matches, or more than one match) are modelled as `none`. -/
def relocate_pointer_to_scratch (params : List MemoryParam) (ptr : Nat) : Option Nat :=
  if (relocLoop ptr params (0, 0)).1 = 0 then none
  else if 1 < (relocLoop ptr params (0, 0)).1 then none
  else some (relocLoop ptr params (0, 0)).2

/-- Step 1 of `done_preparing`: initialize each IN/IN_OUT parameter's scratch
buffer with the input data; the loop's `ASSERT(max_size < size_t(-1))` (checked
for every parameter) is modelled as `none`. -/
def copyInParams (t : Task) : List MemoryParam → Option Task
  | [] => some t
  | param :: rest =>
    if param.num_bytes.max_size < USIZE_MAX then
      if param.mode = ArgMode.IN_OUT ∨ param.mode = ArgMode.IN then
        copyInParams (t.remote_memcpy param.scratch param.dest param.num_bytes.max_size) rest
      else copyInParams t rest
    else none

/-- Step 2 of `done_preparing`: point registers and in-memory pointers at the
scratch areas, and relocate each dynamic-size `mem_ptr` to its scratch-side
address.  The source mutates `param.num_bytes.mem_ptr` in place while
iterating, but `relocate_pointer_to_scratch` inspects only `dest`,
`num_bytes.max_size` and `scratch`, which this step never changes, so every
relocation is resolved against the original list `full`. -/
def relocateParams (full : List MemoryParam) (r : Regs) (t : Task) :
    List MemoryParam → Option (Regs × Task × List MemoryParam)
  | [] => some (r, t, [])
  | param :: rest =>
    let r1 := if param.ptr_in_reg ≠ 0 then r.set_arg param.ptr_in_reg param.scratch else r
    let step : Option (Task × MemoryParam) :=
      Option.bind
        (if param.ptr_in_memory ≠ 0 then
          match relocate_pointer_to_scratch full param.ptr_in_memory with
          | some p => some (set_remote_ptr t p param.scratch)
          | none => none
        else some t)
        (fun t1 =>
          if param.num_bytes.mem_ptr ≠ 0 then
            match relocate_pointer_to_scratch full param.num_bytes.mem_ptr with
            | some mp => some (t1, { param with num_bytes := { param.num_bytes with mem_ptr := mp } })
            | none => none
          else some (t1, param))
    match step with
    | none => none
    | some (t1, param1) =>
      match relocateParams full r1 t1 rest with
      | none => none
      | some (r2, t2, rest2) => some (r2, t2, param1 :: rest2)

/-- Model of `TaskSyscallState::done_preparing(sw)`.  Returns the cached
switchability when already prepared; otherwise decides switchability (degrading
`ALLOW_SWITCH` to `PREVENT_SWITCH` with a warning when the requested scratch
exceeds the task's capacity), returns early without touching the tracee when
the decision is `PREVENT_SWITCH` or no parameters were registered, and
otherwise enables scratch and performs the copy and relocation phases.
`none` models the `ASSERT(scratch_num_bytes >= 0)` and the assertions inside
the copy/relocate phases. -/
def TaskSyscallState.done_preparing (st : TaskSyscallState) (t : Task) (sw : Switchable) :
    Option (TaskSyscallState × Task × Switchable) :=
  if st.preparation_done then some (st, t, st.switchable)
  else
    let st1 : TaskSyscallState := { st with preparation_done := true }
    let scratch_num_bytes := subU64 st1.scratch t.scratch_ptr
    if 2 ^ 63 ≤ scratch_num_bytes then none
    else
      let sw2 :=
        if sw = ALLOW_SWITCH ∧ scratch_num_bytes > t.scratch_size then PREVENT_SWITCH else sw
      let st2 : TaskSyscallState := { st1 with switchable := sw2 }
      if sw2 = PREVENT_SWITCH ∨ st2.param_list = [] then some (st2, t, sw2)
      else
        let st3 : TaskSyscallState := { st2 with scratch_enabled := true }
        match copyInParams t st3.param_list with
        | none => none
        | some t1 =>
          match relocateParams st3.param_list t.regs t1 st3.param_list with
          | none => none
          | some (r, t2, params2) =>
            some ({ st3 with param_list := params2 }, { t2 with regs := r }, sw2)

/-- The `already_consumed` computation of `TaskSyscallState::eval_param_size`:
sum the already-assigned sizes of every parameter `j < i` whose `ParamSize` is
same-source with `target`. -/
def consumedSum (params : List MemoryParam) (sizes : List Nat) (i : Nat)
    (target : ParamSize) : Nat :=
  (((params.take i).zip (sizes.take i)).map
    (fun pr => if pr.1.num_bytes.is_same_source target then pr.2 else 0)).sum

/-- Model of `TaskSyscallState::eval_param_size(i, actual_sizes)`: assert that
`actual_sizes` holds exactly the sizes of the parameters before `i`, then
evaluate parameter `i`'s `ParamSize` with the consumed prefix of its source. -/
def eval_param_size (t : Task) (params : List MemoryParam) (i : Nat)
    (actual_sizes : List Nat) : Option Nat :=
  if actual_sizes.length = i then
    match params.get? i with
    | some param => param.num_bytes.eval t (consumedSum params actual_sizes i param.num_bytes)
    | none => none
  else none

/-- The size-computation loop of the finalizer: call `eval_param_size` for
each parameter index in order, accumulating the assigned sizes (this is the
loop of the scratch-disabled branch of `process_syscall_results`, where the
task is not modified between iterations). -/
def sizesLoop (t : Task) (params : List MemoryParam) : Nat → Option (List Nat)
  | 0 => some []
  | k + 1 =>
    match sizesLoop t params k with
    | none => none
    | some sizes =>
      match eval_param_size t params k sizes with
      | none => none
      | some s => some (sizes ++ [s])

/-- The complete list of actual sizes the finalizer assigns to `params`. -/
def computeActualSizes (t : Task) (params : List MemoryParam) : Option (List Nat) :=
  sizesLoop t params params.length

/-- Step 1 of the scratch-enabled branch of `process_syscall_results`: compute
each parameter's actual size and, when writing back, copy that many bytes for
OUT/IN_OUT parameters from the scratch snapshot `data` back to `dest`.  The
writes are interleaved with the size evaluations exactly as in the source. -/
def step1Loop (params : List MemoryParam) (base : Nat) (data : List Nat)
    (write_back : Bool) (t : Task) : Nat → Option (Task × List Nat)
  | 0 => some (t, [])
  | k + 1 =>
    match step1Loop params base data write_back t k with
    | none => none
    | some (tk, sizes) =>
      match params.get? k with
      | none => none
      | some param =>
        match eval_param_size tk params k sizes with
        | none => none
        | some s =>
          let tk1 :=
            if write_back ∧ (param.mode = ArgMode.IN_OUT ∨ param.mode = ArgMode.OUT) then
              { tk with
                mem := writeList tk.mem param.dest ((data.drop (param.scratch - base)).take s) }
            else tk
          some (tk1, sizes ++ [s])

/-- Step 2 of the scratch-enabled branch of `process_syscall_results`: restore
each redirected argument register and each rewritten in-memory pointer slot to
the parameter's original `dest`; the boolean accumulates `memory_cleaned_up`. -/
def restoreParams : Regs → Task → Bool → List MemoryParam → Regs × Task × Bool
  | r, t, cleaned, [] => (r, t, cleaned)
  | r, t, cleaned, param :: rest =>
    let r1 := if param.ptr_in_reg ≠ 0 then r.set_arg param.ptr_in_reg param.dest else r
    if param.ptr_in_memory ≠ 0 then
      restoreParams r1 (set_remote_ptr t param.ptr_in_memory param.dest) true rest
    else restoreParams r1 t cleaned rest

/-- Step 3 of the scratch-enabled branch of `process_syscall_results`: the
(address, length) pairs recorded into the trace, one per
OUT/IN_OUT/IN_OUT_NO_SCRATCH parameter with its assigned size (whether the
bytes come from tracee memory or from the local snapshot, the recorded
location and length are the same). -/
def recordLog : List MemoryParam → List Nat → List (Nat × Nat)
  | [], _ => []
  | _ :: _, [] => []
  | param :: ps, s :: ss =>
    (if param.mode = ArgMode.IN_OUT_NO_SCRATCH then [(param.dest, s)]
     else if param.mode = ArgMode.IN_OUT ∨ param.mode = ArgMode.OUT then [(param.dest, s)]
     else []) ++ recordLog ps ss

/-- Model of `TaskSyscallState::process_syscall_results(write_back)`: returns
the final task state together with the list of (address, length) memory
records written to the trace.  `none` models the entry `ASSERT(preparation_done)`
and the assertions raised by `eval_param_size`. -/
def TaskSyscallState.process_syscall_results (st : TaskSyscallState) (t : Task)
    (write_back : Bool) : Option (Task × List (Nat × Nat)) :=
  if st.preparation_done then
    if st.scratch_enabled then
      let scratch_num_bytes := st.scratch - t.scratch_ptr
      let data := (List.range scratch_num_bytes).map (fun k => t.mem (t.scratch_ptr + k) % 256)
      match step1Loop st.param_list t.scratch_ptr data write_back t st.param_list.length with
      | none => none
      | some (t1, sizes) =>
        let rst := restoreParams t.regs t1 false st.param_list
        let t2 : Task := { rst.2.1 with regs := rst.1 }
        let log := if write_back then recordLog st.param_list sizes else []
        some (t2, log ++ (if st.record_page_below_stack_ptr then [(t2.regs.sp - 4096, 4096)] else []))
    else
      match computeActualSizes t st.param_list with
      | none => none
      | some sizes =>
        some (t, (st.param_list.zip sizes).map (fun pr => (pr.1.dest, pr.2)) ++
          (if st.record_page_below_stack_ptr then [(t.regs.sp - 4096, 4096)] else []))
  else none

/-! Kernel ABI constants and structure layouts.  The numeric values below come
from the Linux/glibc headers and from the architecture descriptors
(`kernel_abi.h`), which are outside this file's source; they are modelled from
the spec's description of the ABI descriptor (§6), specialized to X64. -/

/-- Modelled from the spec: `EINVAL` errno value (from `<errno.h>`). -/
def EINVAL : Nat := 22

/-- Modelled from the spec: `ENOENT` errno value (from `<errno.h>`). -/
def ENOENT : Nat := 2

/-- Modelled from the spec: `MSG_DONTWAIT` flag (from `<sys/socket.h>`). -/
def MSG_DONTWAIT : Nat := 0x40

/-- Modelled from the spec: X64 `struct msghdr` field offsets and size —
msg_name 0, msg_namelen 8, msg_iov 16, msg_iovlen 24, msg_control 32,
msg_controllen 40; `sizeof == 56`.  An `iovec` is `{ iov_base 0, iov_len 8 }`
of size 16; an `mmsghdr` is `{ msg_hdr 0, msg_len 56 }` of size 64. -/
def sizeof_msghdr : Nat := 56

/-- Modelled from the spec: X64 `sizeof(struct iovec)`. -/
def sizeof_iovec : Nat := 16

/-- Modelled from the spec: X64 `sizeof(struct mmsghdr)`. -/
def sizeof_mmsghdr : Nat := 64

/-- Model of `prepare_recvmsg(t, syscall_state, msgp, io_size)`: register the
`msg_name` buffer (sized by `msg_namelen`), the iovec array (IN), each
`iov_base` buffer (`io_size` limited to that iovec's length, distributed
same-source), and the `msg_control` buffer (sized by `msg_controllen`). -/
def prepare_recvmsg (t : Task) (st : TaskSyscallState) (msgp : Nat) (io_size : ParamSize) :
    TaskSyscallState :=
  let namelen_ptr := msgp + 8
  let st1 := (st.mem_ptr_parameter t (msgp + 0)
    (ParamSize.from_initialized_mem t namelen_ptr 4) ArgMode.OUT).1
  let msg_iovlen := readMemBytes t.mem (msgp + 24) 8
  let res := st1.mem_ptr_parameter t (msgp + 16)
    { max_size := sizeof_iovec * msg_iovlen } ArgMode.IN
  let iovecsp := res.2
  let st2 := (List.range msg_iovlen).foldl
    (fun acc i =>
      let iov_len := readMemBytes t.mem (iovecsp + sizeof_iovec * i + 8) 8
      (acc.mem_ptr_parameter t (iovecsp + sizeof_iovec * i)
        (io_size.limit_size iov_len) ArgMode.OUT).1)
    res.1
  let controllen_ptr := msgp + 40
  (st2.mem_ptr_parameter t (msgp + 32)
    (ParamSize.from_initialized_mem t controllen_ptr 8) ArgMode.OUT).1

/-- Model of `prepare_recvmmsg(t, syscall_state, mmsgp, vlen)`: apply
`prepare_recvmsg` to each element, with the element's iovecs drawing their
dynamic size from that element's `msg_len` field (a 4-byte unsigned). -/
def prepare_recvmmsg (t : Task) (st : TaskSyscallState) (mmsgp : Nat) (vlen : Nat) :
    TaskSyscallState :=
  (List.range vlen).foldl
    (fun acc i =>
      prepare_recvmsg t acc (mmsgp + sizeof_mmsghdr * i)
        (ParamSize.from_mem (mmsgp + sizeof_mmsghdr * i + 56) 4))
    st

/-- Model of the `case Arch::recvmsg` branch of `rec_prepare_syscall_arch`:
register the msghdr (IN_OUT), run `prepare_recvmsg` with the io size taken
from the syscall result (`ssize_t`, 8 bytes), and allow switching unless
`MSG_DONTWAIT` is set in the flags argument. -/
def rec_prepare_recvmsg (t : Task) (st : TaskSyscallState) :
    Option (TaskSyscallState × Task × Switchable) :=
  let res := st.reg_parameter t 2 { max_size := sizeof_msghdr } ArgMode.IN_OUT
  let st1 := prepare_recvmsg t res.1 res.2 (ParamSize.from_syscall_result 8)
  if (t.regs.arg 3) % 2 ^ 32 &&& MSG_DONTWAIT = 0 then st1.done_preparing t ALLOW_SWITCH
  else st1.done_preparing t PREVENT_SWITCH

/-- Modelled from the spec: X64 `sizeof(struct timespec)` (two 8-byte words). -/
def sizeof_timespec : Nat := 16

/-- Model of the `case Arch::nanosleep` branch of `rec_prepare_syscall_arch`:
`reg_parameter<timespec>(2)` — note the argument-mode default `OUT` — then
`done_preparing(ALLOW_SWITCH)`. -/
def rec_prepare_nanosleep (t : Task) (st : TaskSyscallState) :
    Option (TaskSyscallState × Task × Switchable) :=
  let res := st.reg_parameter t 2 { max_size := sizeof_timespec } ArgMode.OUT
  res.1.done_preparing t ALLOW_SWITCH

/-- Model of the `case Arch::nanosleep` branch of `rec_process_syscall_arch`:
write scratch results back only when the kernel's return value, truncated to
`int`, is non-zero (the kernel does not write the remaining-time argument when
the sleep completed). -/
def rec_process_nanosleep (st : TaskSyscallState) (t : Task) :
    Option (Task × List (Nat × Nat)) :=
  st.process_syscall_results t (decide (t.regs.syscall_result % 2 ^ 32 ≠ 0))

/-- Model of `Task::read_c_str`: read bytes until a NUL terminator, with an
explicit bound (the source walks tracee memory page by page; `PATH_MAX`-sized
fuel suffices for the pathname uses here). -/
def read_c_str (mem : Nat → Nat) (addr : Nat) : Nat → List Nat
  | 0 => []
  | fuel + 1 =>
    let b := mem addr % 256
    if b = 0 then [] else b :: read_c_str mem (addr + 1) fuel

/-- Model of the handling of `open` at syscall entry: `rec_prepare_syscall_arch`
has no `case Arch::open`, so control falls through to the `default` branch,
which returns `PREVENT_SWITCH` without touching the task or the syscall
state. -/
def rec_prepare_open (t : Task) (st : TaskSyscallState) :
    TaskSyscallState × Task × Switchable :=
  (st, t, PREVENT_SWITCH)

/-- Model of the `case Arch::open` branch of `rec_process_syscall_arch` (the
syscall-exit hook): read the pathname argument and, when it is blacklisted,
overwrite the (already produced) kernel result with `-ENOENT`.
`bl` abstracts `is_blacklisted_filename`, which lives outside this file's
source. -/
def rec_process_open (bl : List Nat → Bool) (t : Task) : Task :=
  let pathname := read_c_str t.mem (t.regs.arg 1) 4096
  if bl pathname then
    { t with regs := t.regs.set_syscall_result ((2 ^ 64 - ENOENT) % 2 ^ 64) }
  else t

/-- Model of the `expect_errno` check at the top of `rec_process_syscall_arch`:
when a preparer recorded an expected errno, assert that the kernel returned
exactly its negation (`none` models the fatal `ASSERT`) and skip all further
result processing (`some true`); otherwise fall through to the per-syscall
processing (`some false`). -/
def rec_process_expect_errno (st : TaskSyscallState) (t : Task) : Option Bool :=
  if st.expect_errno ≠ 0 then
    if t.syscall_result_signed = -(st.expect_errno : Int) then some true else none
  else some false

/-! The per-family sub-command dispatches of `rec_prepare_syscall_arch` and
`prepare_socketcall`.  Sub-command constants come from the Linux headers
(outside this file's source). -/

/-- Modelled from the spec: fcntl command numbers from the architecture
descriptor (x86-family values): DUPFD 0, GETFD 1, SETFD 2, GETFL 3, SETFL 4,
GETLK 5, SETLK 6, SETLKW 7, SETOWN 8, SETSIG 10, GETLK64 12, SETLK64 13,
SETLKW64 14, SETOWN_EX 15, GETOWN_EX 16. -/
def F_GETLK : Nat := 5

/-- Modelled from the spec: X64 `sizeof(struct flock)`. -/
def sizeof_flock : Nat := 32

/-- Modelled from the spec: X64 `sizeof(struct flock64)`. -/
def sizeof_flock64 : Nat := 32

/-- Modelled from the spec: X64 `sizeof(struct f_owner_ex)`. -/
def sizeof_f_owner_ex : Nat := 8

/-- Model of the `case Arch::fcntl`/`case Arch::fcntl64` branch of
`rec_prepare_syscall_arch`: dispatch on the (32-bit) command in argument 2.
GETLK/GETLK64 register the lock structure IN_OUT; GETOWN_EX registers an
out-parameter; SETLKW/SETLKW64 return `done_preparing(ALLOW_SWITCH)` with no
parameters; the listed no-op commands fall through; any other command sets
`expect_errno = EINVAL`.  All non-SETLKW paths end in
`done_preparing(PREVENT_SWITCH)`. -/
def rec_prepare_fcntl (t : Task) (st : TaskSyscallState) :
    Option (TaskSyscallState × Task × Switchable) :=
  let cmd := (t.regs.arg 2) % 2 ^ 32
  if cmd = 0 ∨ cmd = 1 ∨ cmd = 3 ∨ cmd = 4 ∨ cmd = 2 ∨ cmd = 6 ∨ cmd = 13 ∨ cmd = 8 ∨
      cmd = 15 ∨ cmd = 10 then
    st.done_preparing t PREVENT_SWITCH
  else if cmd = F_GETLK then
    let st1 := (st.reg_parameter t 3 { max_size := sizeof_flock } ArgMode.IN_OUT).1
    st1.done_preparing t PREVENT_SWITCH
  else if cmd = 12 then
    let st1 := (st.reg_parameter t 3 { max_size := sizeof_flock64 } ArgMode.IN_OUT).1
    st1.done_preparing t PREVENT_SWITCH
  else if cmd = 16 then
    let st1 := (st.reg_parameter t 3 { max_size := sizeof_f_owner_ex } ArgMode.OUT).1
    st1.done_preparing t PREVENT_SWITCH
  else if cmd = 7 ∨ cmd = 14 then
    st.done_preparing t ALLOW_SWITCH
  else
    let st1 : TaskSyscallState := { st with expect_errno := EINVAL }
    st1.done_preparing t PREVENT_SWITCH

/-- Modelled from the spec: `FUTEX_CMD_MASK` as a 32-bit mask pattern,
`~(FUTEX_PRIVATE_FLAG | FUTEX_CLOCK_REALTIME) = ~384` (from `<linux/futex.h>`). -/
def FUTEX_CMD_MASK32 : Nat := 0xFFFFFE7F

/-- The futex operation after the `(int)arg2 & FUTEX_CMD_MASK` masking. -/
def futexCmd (t : Task) : Nat := (t.regs.arg 2) % 2 ^ 32 &&& FUTEX_CMD_MASK32

/-- Model of the `case Arch::futex` branch of `rec_prepare_syscall_arch`:
futex words are registered IN_OUT_NO_SCRATCH (the actual memory word must be
used); WAIT/WAIT_BITSET (0/9) allow switching; CMP_REQUEUE/WAKE_OP (4/5) also
register arg 5; WAKE (1) registers only arg 1; any other command sets
`expect_errno = EINVAL`.  Non-WAIT paths end in
`done_preparing(PREVENT_SWITCH)`. -/
def rec_prepare_futex (t : Task) (st : TaskSyscallState) :
    Option (TaskSyscallState × Task × Switchable) :=
  let op := futexCmd t
  if op = 0 ∨ op = 9 then
    let st1 := (st.reg_parameter t 1 { max_size := 4 } ArgMode.IN_OUT_NO_SCRATCH).1
    st1.done_preparing t ALLOW_SWITCH
  else if op = 4 ∨ op = 5 then
    let st1 := (st.reg_parameter t 1 { max_size := 4 } ArgMode.IN_OUT_NO_SCRATCH).1
    let st2 := (st1.reg_parameter t 5 { max_size := 4 } ArgMode.IN_OUT_NO_SCRATCH).1
    st2.done_preparing t PREVENT_SWITCH
  else if op = 1 then
    let st1 := (st.reg_parameter t 1 { max_size := 4 } ArgMode.IN_OUT_NO_SCRATCH).1
    st1.done_preparing t PREVENT_SWITCH
  else
    let st1 : TaskSyscallState := { st with expect_errno := EINVAL }
    st1.done_preparing t PREVENT_SWITCH

/-- Model of the `case Arch::prctl` branch of `rec_prepare_syscall_arch`:
the PR_GET_* options (ENDIAN 19, FPEMU 9, FPEXC 11, PDEATHSIG 2, TSC 25,
UNALIGN 5) register a 4-byte out-parameter in arg 2; PR_GET_NAME (16)
registers 16 bytes; PR_SET_NAME (15) updates the tracer-side process name (no
tracee effect, modelled as a no-op); PR_SET_SECCOMP (22) falls through; any
other option sets `expect_errno = EINVAL`.  All paths end in
`done_preparing(PREVENT_SWITCH)`. -/
def rec_prepare_prctl (t : Task) (st : TaskSyscallState) :
    Option (TaskSyscallState × Task × Switchable) :=
  let opt := (t.regs.arg 1) % 2 ^ 32
  if opt = 19 ∨ opt = 9 ∨ opt = 11 ∨ opt = 2 ∨ opt = 25 ∨ opt = 5 then
    let st1 := (st.reg_parameter t 2 { max_size := 4 } ArgMode.OUT).1
    st1.done_preparing t PREVENT_SWITCH
  else if opt = 16 then
    let st1 := (st.reg_parameter t 2 { max_size := 16 } ArgMode.OUT).1
    st1.done_preparing t PREVENT_SWITCH
  else if opt = 15 ∨ opt = 22 then
    st.done_preparing t PREVENT_SWITCH
  else
    let st1 : TaskSyscallState := { st with expect_errno := EINVAL }
    st1.done_preparing t PREVENT_SWITCH

/-- Modelled from the spec: `SUBCMDMASK` from `<sys/quota.h>`. -/
def SUBCMDMASK : Nat := 0x00ff

/-- Modelled from the spec: quotactl command numbers (from `<sys/quota.h>`):
Q_SYNC 0x800001, Q_QUOTAON 0x800002, Q_QUOTAOFF 0x800003, Q_GETFMT 0x800004,
Q_GETINFO 0x800005, Q_SETINFO 0x800006, Q_GETQUOTA 0x800007,
Q_SETQUOTA 0x800008. -/
def Q_GETQUOTA : Nat := 0x800007

/-- Modelled from the spec: X64 `sizeof(struct dqblk)`. -/
def sizeof_dqblk : Nat := 72

/-- Modelled from the spec: X64 `sizeof(struct dqinfo)`. -/
def sizeof_dqinfo : Nat := 24

/-- Model of the `case Arch::quotactl` branch of `rec_prepare_syscall_arch`:
switch on `(int)arg1 & SUBCMDMASK`.  Q_GETQUOTA/Q_GETINFO/Q_GETFMT register
out-parameters in arg 4; Q_SETQUOTA is a fatal error (`FATAL`, modelled
`none`); Q_QUOTAON/Q_QUOTAOFF/Q_SETINFO/Q_SYNC fall through; any other value
sets `expect_errno = EINVAL`.  All paths end in
`done_preparing(PREVENT_SWITCH)`. -/
def rec_prepare_quotactl (t : Task) (st : TaskSyscallState) :
    Option (TaskSyscallState × Task × Switchable) :=
  let cmd := (t.regs.arg 1) % 2 ^ 32 &&& SUBCMDMASK
  if cmd = Q_GETQUOTA then
    let st1 := (st.reg_parameter t 4 { max_size := sizeof_dqblk } ArgMode.OUT).1
    st1.done_preparing t PREVENT_SWITCH
  else if cmd = 0x800005 then
    let st1 := (st.reg_parameter t 4 { max_size := sizeof_dqinfo } ArgMode.OUT).1
    st1.done_preparing t PREVENT_SWITCH
  else if cmd = 0x800004 then
    let st1 := (st.reg_parameter t 4 { max_size := 4 } ArgMode.OUT).1
    st1.done_preparing t PREVENT_SWITCH
  else if cmd = 0x800008 then
    none
  else if cmd = 0x800002 ∨ cmd = 0x800003 ∨ cmd = 0x800006 ∨ cmd = 0x800001 then
    st.done_preparing t PREVENT_SWITCH
  else
    let st1 : TaskSyscallState := { st with expect_errno := EINVAL }
    st1.done_preparing t PREVENT_SWITCH

/-- Modelled from the spec: X64 `sizeof(struct msqid64_ds)`. -/
def sizeof_msqid64_ds : Nat := 120

/-- Modelled from the spec: X64 `sizeof(struct msginfo)`. -/
def sizeof_msginfo : Nat := 32

/-- Model of `prepare_msgctl(t, syscall_state, cmd, buf_ptr_reg)`:
IPC_STAT (2) / MSG_STAT (11) register a `msqid64_ds` out-parameter,
IPC_INFO (3) / MSG_INFO (12) a `msginfo`; other commands register nothing.
Always ends in `done_preparing(PREVENT_SWITCH)`. -/
def prepare_msgctl (t : Task) (st : TaskSyscallState) (cmd : Nat) (buf_ptr_reg : Nat) :
    Option (TaskSyscallState × Task × Switchable) :=
  if cmd = 2 ∨ cmd = 11 then
    let st1 := (st.reg_parameter t buf_ptr_reg { max_size := sizeof_msqid64_ds } ArgMode.OUT).1
    st1.done_preparing t PREVENT_SWITCH
  else if cmd = 3 ∨ cmd = 12 then
    let st1 := (st.reg_parameter t buf_ptr_reg { max_size := sizeof_msginfo } ArgMode.OUT).1
    st1.done_preparing t PREVENT_SWITCH
  else
    st.done_preparing t PREVENT_SWITCH

/-- Modelled from the spec: ipc multiplexer call numbers (from
`<linux/ipc.h>`): MSGSND 11, MSGRCV 12, MSGGET 13, MSGCTL 14; `IPC_64` is
0x100; the `ipc_kludge_args` struct is `{ msgbuf 0, msgtype 8 }` of size 16. -/
def MSGCTL : Nat := 14

/-- Model of the `case Arch::ipc` branch of `rec_prepare_syscall_arch`:
MSGCTL dispatches to `prepare_msgctl` on `arg3 & ~IPC_64` with the buffer in
arg 5; MSGGET falls through; MSGSND allows switching with no parameters;
MSGRCV registers the kludge-args struct (IN) and the message buffer of
`sizeof(long) + msgsize` bytes, then allows switching; any other call sets
`expect_errno = EINVAL`.  Fall-through paths end in
`done_preparing(PREVENT_SWITCH)`. -/
def rec_prepare_ipc (t : Task) (st : TaskSyscallState) :
    Option (TaskSyscallState × Task × Switchable) :=
  let call := (t.regs.arg 1) % 2 ^ 64
  if call = MSGCTL then
    prepare_msgctl t st ((t.regs.arg 3) % 2 ^ 32 &&& 0xFFFFFEFF) 5
  else if call = 13 then
    st.done_preparing t PREVENT_SWITCH
  else if call = 11 then
    st.done_preparing t ALLOW_SWITCH
  else if call = 12 then
    let msgsize := t.regs.arg 3
    let res := st.reg_parameter t 5 { max_size := 16 } ArgMode.IN
    let st1 := (res.1.mem_ptr_parameter t (res.2 + 0) { max_size := 8 + msgsize } ArgMode.OUT).1
    st1.done_preparing t ALLOW_SWITCH
  else
    let st1 : TaskSyscallState := { st with expect_errno := EINVAL }
    st1.done_preparing t PREVENT_SWITCH

/-- Modelled from the spec: socketcall multiplexer call numbers (from
`<linux/net.h>`): SOCKET 1 … SENDMMSG 20; the per-call argument structs
(`getsockopt_args`, `socketpair_args`, `getsockname_args`, `recv_args`,
`accept_args`, `accept4_args`, `recvfrom_args`, `recvmsg_args`,
`recvmmsg_args`, `sendmsg_args`, `sendmmsg_args`) are word/int layouts whose
field offsets appear inline below. -/
def SYS_GETSOCKOPT : Nat := 15

/-- Model of `prepare_socketcall(t, syscall_state)`: dispatch on the (32-bit)
call number in argument 1, registering the parameters of each known call as
in the source; an unknown call number sets `expect_errno = EINVAL`.
Fall-through paths end in `done_preparing(PREVENT_SWITCH)`. -/
def prepare_socketcall (t : Task) (st : TaskSyscallState) :
    Option (TaskSyscallState × Task × Switchable) :=
  let call := (t.regs.arg 1) % 2 ^ 32
  if call = 1 ∨ call = 3 ∨ call = 2 ∨ call = 4 ∨ call = 9 ∨ call = 11 ∨ call = 14 ∨
      call = 13 then
    st.done_preparing t PREVENT_SWITCH
  else if call = SYS_GETSOCKOPT then
    let res := st.reg_parameter t 2 { max_size := 32 } ArgMode.IN
    let argsp := res.2
    let res2 := res.1.mem_ptr_parameter t (argsp + 24) { max_size := 4 } ArgMode.IN_OUT
    let st1 := (res2.1.mem_ptr_parameter t (argsp + 16)
      (ParamSize.from_initialized_mem t res2.2 4) ArgMode.OUT).1
    st1.done_preparing t PREVENT_SWITCH
  else if call = 8 then
    let res := st.reg_parameter t 2 { max_size := 24 } ArgMode.IN
    let st1 := (res.1.mem_ptr_parameter t (res.2 + 16) { max_size := 8 } ArgMode.OUT).1
    st1.done_preparing t PREVENT_SWITCH
  else if call = 7 ∨ call = 6 then
    let res := st.reg_parameter t 2 { max_size := 24 } ArgMode.IN
    let argsp := res.2
    let res2 := res.1.mem_ptr_parameter t (argsp + 16) { max_size := 4 } ArgMode.IN_OUT
    let st1 := (res2.1.mem_ptr_parameter t (argsp + 8)
      (ParamSize.from_initialized_mem t res2.2 4) ArgMode.OUT).1
    st1.done_preparing t PREVENT_SWITCH
  else if call = 10 then
    let res := st.reg_parameter t 2 { max_size := 32 } ArgMode.IN
    let argsp := res.2
    let len := readMemBytes t.mem (argsp + 16) 8
    let st1 := (res.1.mem_ptr_parameter t (argsp + 8)
      (ParamSize.from_syscall_result 8 len) ArgMode.OUT).1
    st1.done_preparing t ALLOW_SWITCH
  else if call = 5 then
    let res := st.reg_parameter t 2 { max_size := 24 } ArgMode.IN
    let argsp := res.2
    let res2 := res.1.mem_ptr_parameter t (argsp + 16) { max_size := 4 } ArgMode.IN_OUT
    let st1 := (res2.1.mem_ptr_parameter t (argsp + 8)
      (ParamSize.from_initialized_mem t res2.2 4) ArgMode.OUT).1
    st1.done_preparing t ALLOW_SWITCH
  else if call = 18 then
    let res := st.reg_parameter t 2 { max_size := 32 } ArgMode.IN
    let argsp := res.2
    let res2 := res.1.mem_ptr_parameter t (argsp + 16) { max_size := 4 } ArgMode.IN_OUT
    let st1 := (res2.1.mem_ptr_parameter t (argsp + 8)
      (ParamSize.from_initialized_mem t res2.2 4) ArgMode.OUT).1
    st1.done_preparing t ALLOW_SWITCH
  else if call = 12 then
    let res := st.reg_parameter t 2 { max_size := 48 } ArgMode.IN
    let argsp := res.2
    let len := readMemBytes t.mem (argsp + 16) 8
    let st1 := (res.1.mem_ptr_parameter t (argsp + 8)
      (ParamSize.from_syscall_result 8 len) ArgMode.OUT).1
    let res2 := st1.mem_ptr_parameter t (argsp + 40) { max_size := 4 } ArgMode.IN_OUT
    let st2 := (res2.1.mem_ptr_parameter t (argsp + 32)
      (ParamSize.from_initialized_mem t res2.2 4) ArgMode.OUT).1
    st2.done_preparing t ALLOW_SWITCH
  else if call = 17 then
    let res := st.reg_parameter t 2 { max_size := 24 } ArgMode.IN
    let argsp := res.2
    let res2 := res.1.mem_ptr_parameter t (argsp + 8) { max_size := sizeof_msghdr } ArgMode.IN_OUT
    let st1 := prepare_recvmsg t res2.1 res2.2 (ParamSize.from_syscall_result 8)
    let flags := readMemBytes t.mem (argsp + 16) 4
    if flags &&& MSG_DONTWAIT = 0 then st1.done_preparing t ALLOW_SWITCH
    else st1.done_preparing t PREVENT_SWITCH
  else if call = 19 then
    let res := st.reg_parameter t 2 { max_size := 32 } ArgMode.IN
    let argsp := res.2
    let vlen := readMemBytes t.mem (argsp + 16) 4
    let res2 := res.1.mem_ptr_parameter t (argsp + 8)
      { max_size := sizeof_mmsghdr * vlen } ArgMode.IN_OUT
    let st1 := prepare_recvmmsg t res2.1 res2.2 vlen
    let flags := readMemBytes t.mem (argsp + 20) 4
    if flags &&& MSG_DONTWAIT = 0 then st1.done_preparing t ALLOW_SWITCH
    else st1.done_preparing t PREVENT_SWITCH
  else if call = 16 then
    let argsp := t.regs.arg 2
    let flags := readMemBytes t.mem (argsp + 16) 4
    if flags &&& MSG_DONTWAIT = 0 then st.done_preparing t ALLOW_SWITCH
    else st.done_preparing t PREVENT_SWITCH
  else if call = 20 then
    let res := st.reg_parameter t 2 { max_size := 24 } ArgMode.IN
    let argsp := res.2
    let vlen := readMemBytes t.mem (argsp + 16) 4
    let st1 := (res.1.mem_ptr_parameter t (argsp + 8)
      { max_size := sizeof_mmsghdr * vlen } ArgMode.IN_OUT).1
    let flags := readMemBytes t.mem (argsp + 20) 4
    if flags &&& MSG_DONTWAIT = 0 then st1.done_preparing t ALLOW_SWITCH
    else st1.done_preparing t PREVENT_SWITCH
  else
    let st1 : TaskSyscallState := { st with expect_errno := EINVAL }
    st1.done_preparing t PREVENT_SWITCH

/-- The return value that the spec's description of `eval` predicts:
`max_size`, clamped by the `read_size`-byte value at `mem_ptr` minus
`already_consumed` when `mem_ptr` is set, and by the low `read_size` bytes of
the syscall result minus `already_consumed` when `from_syscall` is set.  This
definition follows the spec's words (it has no failure outcome besides the
consumed-exceeds-source assertion), for comparison with `ParamSize.eval`. -/
def specEvalClamp (ps : ParamSize) (t : Task) (ac : Nat) : Nat :=
  let s1 := if ps.mem_ptr ≠ 0 then
    min ps.max_size (readMemBytes t.mem ps.mem_ptr ps.read_size - ac)
  else ps.max_size
  if ps.from_syscall then min s1 (t.regs.syscall_result % 2 ^ (8 * ps.read_size) - ac) else s1

/-- A parameter takes part in scratch allocation unless it was registered
`IN_OUT_NO_SCRATCH`. -/
def scratchUses (p : MemoryParam) : Prop := p.mode ≠ ArgMode.IN_OUT_NO_SCRATCH

/-- The bump-allocator invariant of C10: the scratch ranges
`[p.scratch, p.scratch + max_size)` of scratch-using parameters are, in
registration order, pairwise ordered (hence disjoint), and all lie below the
cursor. -/
def ScratchChainInv (params : List MemoryParam) (cursor : Nat) : Prop :=
  List.Pairwise (fun p q => scratchUses p → scratchUses q →
    p.scratch + p.num_bytes.max_size ≤ q.scratch) params ∧
  ∀ p ∈ params, scratchUses p → p.scratch + p.num_bytes.max_size ≤ cursor

/-- Concrete tracee memory for the spec's recvmsg scenario: a `msghdr` at
0x1000 with `msg_name = 0`, `msg_iov = 0x2000`, `msg_iovlen = 2`,
`msg_control = 0`, and two iovecs `{base 0xA, len 10}`, `{base 0xB, len 20}`
at 0x2000 (little-endian bytes; all other bytes 0). -/
def exMem : Nat → Nat := fun a =>
  if a = 0x1011 then 0x20
  else if a = 0x1018 then 2
  else if a = 0x2000 then 0xA
  else if a = 0x2008 then 10
  else if a = 0x2010 then 0xB
  else if a = 0x2018 then 20
  else 0

/-- The task at recvmsg entry for the spec's scenario: `arg2` points at the
msghdr, flags are 0, and a 4096-byte scratch region sits at 0x8000. -/
def exTask : Task :=
  { regs := { arg := fun i => if i = 2 then 0x1000 else 0, syscall_result := 0, sp := 0x7000 },
    mem := exMem, scratch_ptr := 0x8000, scratch_size := 4096 }

/-- The full record-side pipeline of the recvmsg scenario: prepare the syscall
(registering the msghdr, iovec array and iovec buffers and redirecting them to
scratch), let the kernel return 15, and finalize; the result is the list of
(address, length) records written to the trace. -/
def recvmsgExampleLog : Option (List (Nat × Nat)) :=
  Option.bind (rec_prepare_recvmsg exTask (TaskSyscallState.init {} exTask)) (fun r =>
    Option.map Prod.snd
      (TaskSyscallState.process_syscall_results r.1
        { r.2.1 with regs := Regs.set_syscall_result r.2.1.regs 15 } true))

/-- Registered parameters of the closed `c3_restores_origin` instance: one
register-redirected parameter and one memory-redirected parameter. -/
def c3P1 : MemoryParam :=
  { dest := 0x4000, scratch := 0x8000, num_bytes := { max_size := 8 },
    ptr_in_reg := 2, mode := ArgMode.OUT }

/-- Second parameter of the C3 closed instance (its pointer slot lives at
0x4000). -/
def c3P2 : MemoryParam :=
  { dest := 0x5000, scratch := 0x8008, num_bytes := { max_size := 8 },
    ptr_in_memory := 0x4000, mode := ArgMode.OUT }

/-- Prepared, scratch-enabled syscall state of the C3 closed instance. -/
def c3St : TaskSyscallState :=
  { param_list := [c3P1, c3P2], scratch := 0x8010,
    preparation_done := true, scratch_enabled := true }

/-- Post-kernel task of the C3 closed instance (argument register 2 still
points into scratch). -/
def c3Task : Task :=
  { regs := { arg := fun i => if i = 2 then 0x8000 else 0, syscall_result := 8, sp := 0 },
    mem := fun _ => 0, scratch_ptr := 0x8000, scratch_size := 4096 }

/-- Concrete task for the C7 closed instance: argument 1 is 99 (unknown to
prctl, quotactl, ipc and socketcall) and argument 2 is 777 (unknown futex and
fcntl command). -/
def c7Task : Task :=
  { regs := { arg := fun i => if i = 1 then 99 else if i = 2 then 777 else 0,
              syscall_result := 0, sp := 0 },
    mem := fun _ => 0, scratch_ptr := 0, scratch_size := 4096 }

/-- Post-kernel task for the C7 exit-check instance: the result register holds
`-EINVAL`. -/
def c7ExitTask : Task :=
  { regs := { arg := fun _ => 0, syscall_result := 2 ^ 64 - 22, sp := 0 },
    mem := fun _ => 0, scratch_ptr := 0, scratch_size := 4096 }


/-! Helper lemmas. -/

theorem subU64_of_le (a b : Nat) (hba : b ≤ a) (ha : a < 2 ^ 64) : subU64 a b = a - b := by
  unfold subU64
  rw [Nat.mod_eq_of_lt ha, Nat.mod_eq_of_lt (lt_of_le_of_lt hba ha)]
  have h1 : a + 2 ^ 64 - b = (a - b) + 2 ^ 64 := by omega
  rw [h1, Nat.add_mod_right, Nat.mod_eq_of_lt (by omega)]

theorem done_preparing_fields (st : TaskSyscallState) (t : Task) (sw : Switchable)
    (st1 : TaskSyscallState) (t1 : Task) (d : Switchable)
    (h : st.done_preparing t sw = some (st1, t1, d)) :
    st1.preparation_done = true ∧ st1.switchable = d := by
  unfold TaskSyscallState.done_preparing at h
  by_cases hp : st.preparation_done = true
  · rw [if_pos hp] at h
    simp only [Option.some.injEq, Prod.mk.injEq] at h
    obtain ⟨h1, _, h3⟩ := h
    subst h1
    exact ⟨hp, h3⟩
  · rw [if_neg hp] at h
    dsimp only at h
    repeat' split at h
    any_goals exact Option.noConfusion h
    all_goals
      (injection h with h₁
       injection h₁ with e₁ h₂
       injection h₂ with e₂ e₃
       subst e₁
       exact ⟨rfl, e₃⟩)

/-- C5: re-running preparation on a state with `preparation_done = true` is a
no-op — `reg_parameter` and `mem_ptr_parameter` return a null address and
append nothing, `done_preparing` returns the cached switchability without
touching the state or the tracee — and consequently a second `done_preparing`
on the state produced by any successful first call returns exactly the first
call's result, so running the preparer twice yields the same switchability and
no duplicated registrations. -/
theorem c5_reprepare_is_noop (st : TaskSyscallState) (t : Task) (arg aobp : Nat)
    (size : ParamSize) (mode : ArgMode) (sw sw2 : Switchable)
    (h : st.preparation_done = true) :
    st.reg_parameter t arg size mode = (st, 0) ∧
    st.mem_ptr_parameter t aobp size mode = (st, 0) ∧
    st.done_preparing t sw = some (st, t, st.switchable) ∧
    (∀ st0 t0 st1 t1 d, TaskSyscallState.done_preparing st0 t0 sw = some (st1, t1, d) →
      TaskSyscallState.done_preparing st1 t1 sw2 = some (st1, t1, d)) := by
  refine ⟨?_, ?_, ?_, ?_⟩
  · simp [TaskSyscallState.reg_parameter, h]
  · simp [TaskSyscallState.mem_ptr_parameter, h]
  · simp [TaskSyscallState.done_preparing, h]
  · intro st0 t0 st1 t1 d h1
    obtain ⟨hd, hsw⟩ := done_preparing_fields st0 t0 sw st1 t1 d h1
    simp [TaskSyscallState.done_preparing, hd, hsw]

/-- Closed instance of `c5_reprepare_is_noop` at a concrete prepared state and
task. -/
theorem c5_witness :
    TaskSyscallState.reg_parameter { preparation_done := true }
      { regs := { arg := fun _ => 0x1000, syscall_result := 0, sp := 0 },
        mem := fun _ => 0, scratch_ptr := 0, scratch_size := 4096 } 2 { max_size := 16 }
      ArgMode.OUT = ({ preparation_done := true }, 0) ∧
    TaskSyscallState.done_preparing { preparation_done := true }
      { regs := { arg := fun _ => 0x1000, syscall_result := 0, sp := 0 },
        mem := fun _ => 0, scratch_ptr := 0, scratch_size := 4096 } ALLOW_SWITCH =
      some ({ preparation_done := true },
        { regs := { arg := fun _ => 0x1000, syscall_result := 0, sp := 0 },
          mem := fun _ => 0, scratch_ptr := 0, scratch_size := 4096 }, PREVENT_SWITCH) := by
  have h := c5_reprepare_is_noop { preparation_done := true }
    { regs := { arg := fun _ => 0x1000, syscall_result := 0, sp := 0 },
      mem := fun _ => 0, scratch_ptr := 0, scratch_size := 4096 } 2 0 { max_size := 16 }
    ArgMode.OUT ALLOW_SWITCH ALLOW_SWITCH rfl
  exact ⟨h.1, h.2.2.1⟩

theorem done_preparing_first_early (st : TaskSyscallState) (t : Task) (sw d : Switchable)
    (h0 : st.preparation_done = false)
    (hassert : subU64 st.scratch t.scratch_ptr < 2 ^ 63)
    (hd : d = (if sw = ALLOW_SWITCH ∧ subU64 st.scratch t.scratch_ptr > t.scratch_size
        then PREVENT_SWITCH else sw))
    (hor : d = PREVENT_SWITCH ∨ st.param_list = []) :
    st.done_preparing t sw = some ({ st with preparation_done := true, switchable := d }, t, d) := by
  unfold TaskSyscallState.done_preparing
  rw [if_neg (by simp [h0])]
  dsimp only
  rw [if_neg (by omega), ← hd, if_pos hor]

/-- C4: on a first `done_preparing` call, an `ALLOW_SWITCH` hint whose scratch
request exceeds the task's capacity degrades (non-fatally, with a warning) to
`PREVENT_SWITCH`; and whenever the final decision is `PREVENT_SWITCH` or no
parameters are registered, the call returns with the task completely untouched
and with `scratch_enabled` unchanged (i.e. still `false`), only marking the
state prepared and caching the decision. -/
theorem c4_scratch_exhaustion_degrades (st : TaskSyscallState) (t : Task) (sw : Switchable)
    (h0 : st.preparation_done = false)
    (hlo : t.scratch_ptr ≤ st.scratch) (hhi : st.scratch < 2 ^ 64)
    (hdiff : st.scratch - t.scratch_ptr < 2 ^ 63) :
    (sw = ALLOW_SWITCH → t.scratch_size < st.scratch - t.scratch_ptr →
      st.done_preparing t sw =
        some ({ st with preparation_done := true, switchable := PREVENT_SWITCH }, t,
          PREVENT_SWITCH)) ∧
    (∀ d, d = (if sw = ALLOW_SWITCH ∧ t.scratch_size < st.scratch - t.scratch_ptr
          then PREVENT_SWITCH else sw) →
      d = PREVENT_SWITCH ∨ st.param_list = [] →
      st.done_preparing t sw =
        some ({ st with preparation_done := true, switchable := d }, t, d)) := by
  have hsub : subU64 st.scratch t.scratch_ptr = st.scratch - t.scratch_ptr :=
    subU64_of_le _ _ hlo hhi
  constructor
  · intro hsw hover
    subst hsw
    refine done_preparing_first_early st t _ _ h0 (by omega) ?_ (Or.inl rfl)
    simp only [gt_iff_lt, hsub]
    simp [hover]
  · intro d hd hor
    refine done_preparing_first_early st t sw d h0 (by omega) ?_ hor
    simp only [gt_iff_lt, hsub]
    exact hd

/-- Closed instance of `c4_scratch_exhaustion_degrades`: a request of 16
scratch bytes against a capacity of 8 degrades `ALLOW_SWITCH` to
`PREVENT_SWITCH` without touching the task. -/
theorem c4_witness :
    TaskSyscallState.done_preparing { scratch := 0x8010 }
      { regs := { arg := fun _ => 0, syscall_result := 0, sp := 0 },
        mem := fun _ => 0, scratch_ptr := 0x8000, scratch_size := 8 } ALLOW_SWITCH =
      some ({ scratch := 0x8010, preparation_done := true, switchable := PREVENT_SWITCH },
        { regs := { arg := fun _ => 0, syscall_result := 0, sp := 0 },
          mem := fun _ => 0, scratch_ptr := 0x8000, scratch_size := 8 }, PREVENT_SWITCH) := by
  have h := (c4_scratch_exhaustion_degrades { scratch := 0x8010 }
    { regs := { arg := fun _ => 0, syscall_result := 0, sp := 0 },
      mem := fun _ => 0, scratch_ptr := 0x8000, scratch_size := 8 } ALLOW_SWITCH rfl
    (by norm_num) (by norm_num) (by norm_num)).1 rfl (by norm_num)
  exact h

theorem relocLoop_count (ptr : Nat) (params : List MemoryParam) (acc : Nat × Nat) :
    (relocLoop ptr params acc).1 = acc.1 + params.countP (fun p => paramContains p ptr) := by
  induction params generalizing acc with
  | nil => simp [relocLoop]
  | cons q rest ih =>
    rw [relocLoop, ih, List.countP_cons]
    by_cases hq : paramContains q ptr
    · rw [if_pos hq, if_pos hq]
      dsimp only
      omega
    · rw [if_neg hq, if_neg hq]
      omega

theorem relocLoop_no_match (ptr : Nat) (params : List MemoryParam) (acc : Nat × Nat)
    (h : ∀ p ∈ params, ¬ paramContains p ptr = true) :
    relocLoop ptr params acc = acc := by
  induction params generalizing acc with
  | nil => rfl
  | cons q rest ih =>
    rw [relocLoop, if_neg (h q (by simp))]
    exact ih acc (fun p hp => h p (by simp [hp]))

theorem relocLoop_unique (ptr : Nat) (params : List MemoryParam) (p : MemoryParam)
    (hp : p ∈ params) (hc : paramContains p ptr = true)
    (hcount : params.countP (fun q => paramContains q ptr) = 1) (acc : Nat × Nat) :
    (relocLoop ptr params acc).2 = p.scratch + (ptr - p.dest) := by
  induction params generalizing acc with
  | nil => exact absurd hp (by simp)
  | cons q rest ih =>
    have hsplit := List.countP_cons (fun r => paramContains r ptr) q rest
    by_cases hq : paramContains q ptr
    · have hrest : rest.countP (fun r => paramContains r ptr) = 0 := by
        rw [List.countP_cons, if_pos hq] at hcount
        omega
      have hpq : p = q := by
        rcases List.mem_cons.mp hp with h1 | h1
        · exact h1
        · exfalso
          have hpos : 0 < rest.countP (fun s => paramContains s ptr) :=
            List.countP_pos_iff.mpr ⟨p, h1, hc⟩
          omega
      subst hpq
      rw [relocLoop, if_pos hq, relocLoop_no_match ptr rest _ ?_]
      intro r hr hcr
      have hpos : 0 < rest.countP (fun s => paramContains s ptr) :=
        List.countP_pos_iff.mpr ⟨r, hr, hcr⟩
      omega
    · have hpq : p ∈ rest := by
        rcases List.mem_cons.mp hp with h1 | h1
        · exact absurd (h1 ▸ hc) hq
        · exact h1
      have hrest : rest.countP (fun r => paramContains r ptr) = 1 := by
        rw [List.countP_cons, if_neg hq] at hcount
        omega
      rw [relocLoop, if_neg hq]
      exact ih hpq hrest _

/-- C6: `relocate_pointer_to_scratch` is total exactly on pointers lying in a
unique registered buffer: when exactly one registered parameter satisfies
`dest ≤ p < dest + max_size` the result is that parameter's
`scratch + (p − dest)`; with zero containing parameters, or with two or more
(overlapping registered buffers), the call is a fatal internal error
(`none`). -/
theorem c6_relocate_unique (params : List MemoryParam) (ptr : Nat) :
    (params.countP (fun p => paramContains p ptr) = 0 →
      relocate_pointer_to_scratch params ptr = none) ∧
    (2 ≤ params.countP (fun p => paramContains p ptr) →
      relocate_pointer_to_scratch params ptr = none) ∧
    (∀ p ∈ params, paramContains p ptr = true →
      params.countP (fun q => paramContains q ptr) = 1 →
      relocate_pointer_to_scratch params ptr = some (p.scratch + (ptr - p.dest))) := by
  have hcnt := relocLoop_count ptr params (0, 0)
  refine ⟨?_, ?_, ?_⟩
  · intro h0
    unfold relocate_pointer_to_scratch
    rw [if_pos (by omega)]
  · intro h2
    unfold relocate_pointer_to_scratch
    rw [if_neg (by omega), if_pos (by omega)]
  · intro p hp hc hcount
    unfold relocate_pointer_to_scratch
    rw [if_neg (by omega), if_neg (by omega),
      relocLoop_unique ptr params p hp hc hcount (0, 0)]

/-- Closed instance of `c6_relocate_unique`: a pointer 4 bytes into the single
registered 16-byte buffer at 100 (scratch 200) relocates to 204. -/
theorem c6_witness :
    relocate_pointer_to_scratch
      [{ dest := 100, scratch := 200, num_bytes := { max_size := 16 } }] 104 = some 204 := by
  have h := (c6_relocate_unique
    [{ dest := 100, scratch := 200, num_bytes := { max_size := 16 } }] 104).2.2
    { dest := 100, scratch := 200, num_bytes := { max_size := 16 } } (by simp)
    (by decide) (by decide)
  simpa using h

/-- C2 (amended): for every `ParamSize` with a well-formed `read_size`,
`eval` fails hard whenever `already_consumed` exceeds either dynamic source's
value, and otherwise returns `max_size` clamped by (memory value −
already_consumed) and (low result-register bytes − already_consumed) —
except that it also fails hard (the final `ASSERT(s < size_t(-1))`) when the
clamped size still equals `size_t(-1)`, a case the original claim omits. -/
theorem c2_eval_characterization (ps : ParamSize) (t : Task) (ac : Nat)
    (hrs : ps.mem_ptr ≠ 0 ∨ ps.from_syscall = true → ps.read_size = 4 ∨ ps.read_size = 8) :
    ((ps.mem_ptr ≠ 0 ∧ readMemBytes t.mem ps.mem_ptr ps.read_size < ac) ∨
      (ps.from_syscall = true ∧ t.regs.syscall_result % 2 ^ (8 * ps.read_size) < ac) →
      ps.eval t ac = none) ∧
    ((ps.mem_ptr ≠ 0 → ac ≤ readMemBytes t.mem ps.mem_ptr ps.read_size) →
      (ps.from_syscall = true → ac ≤ t.regs.syscall_result % 2 ^ (8 * ps.read_size)) →
      ps.eval t ac =
        if specEvalClamp ps t ac < USIZE_MAX then some (specEvalClamp ps t ac) else none) := by
  constructor
  · rintro (⟨hm, hlt⟩ | ⟨hs, hlt⟩)
    · unfold ParamSize.eval
      rw [if_pos hm, if_pos (hrs (Or.inl hm)), if_neg (by omega)]
      rfl
    · unfold ParamSize.eval
      by_cases hm : ps.mem_ptr ≠ 0
      · rw [if_pos hm, if_pos (hrs (Or.inl hm))]
        by_cases hle : ac ≤ readMemBytes t.mem ps.mem_ptr ps.read_size
        · rw [if_pos hle]
          simp only [Option.some_bind]
          rw [if_pos hs, if_pos (hrs (Or.inl hm)), if_neg (by omega)]
          rfl
        · rw [if_neg hle]
          rfl
      · rw [if_neg hm]
        simp only [Option.some_bind]
        rw [if_pos hs, if_pos (hrs (Or.inr hs)), if_neg (by omega)]
        rfl
  · intro hmle hsle
    unfold ParamSize.eval specEvalClamp
    by_cases hm : ps.mem_ptr ≠ 0
    · rw [if_pos hm, if_pos (hrs (Or.inl hm)), if_pos (hmle hm)]
      simp only [Option.some_bind]
      rw [if_pos hm]
      by_cases hs : ps.from_syscall = true
      · rw [if_pos hs, if_pos (hrs (Or.inl hm)), if_pos (hsle hs), if_pos hs]
        simp only [Option.some_bind]
      · rw [if_neg hs, if_neg hs]
        simp only [Option.some_bind]
    · rw [if_neg hm, if_neg hm]
      simp only [Option.some_bind]
      by_cases hs : ps.from_syscall = true
      · rw [if_pos hs, if_pos (hrs (Or.inr hs)), if_pos (hsle hs), if_pos hs]
        simp only [Option.some_bind]
      · rw [if_neg hs, if_neg hs]
        simp only [Option.some_bind]

/-- C2 counterexample: with `max_size = size_t(-1)`, a set `mem_ptr` whose
8 memory bytes are all `0xff` (so the dynamic source value is `size_t(-1)`)
and `already_consumed = 0`, the claim's clamp predicts a returned size of
`size_t(-1)`, but `eval` aborts (the final assertion) instead of returning. -/
theorem c2_counterexample :
    ParamSize.eval { max_size := USIZE_MAX, mem_ptr := 0x100, read_size := 8 }
      { regs := { arg := fun _ => 0, syscall_result := 0, sp := 0 },
        mem := fun _ => 255, scratch_ptr := 0, scratch_size := 0 } 0 = none ∧
    specEvalClamp { max_size := USIZE_MAX, mem_ptr := 0x100, read_size := 8 }
      { regs := { arg := fun _ => 0, syscall_result := 0, sp := 0 },
        mem := fun _ => 255, scratch_ptr := 0, scratch_size := 0 } 0 = USIZE_MAX := by
  constructor
  · decide
  · decide

/-- Closed instance of `c2_eval_characterization`: a syscall-result-sized
parameter with `max_size = 100`, result register 42 and 30 bytes already
consumed evaluates to `min 100 (42 − 30) = 12`. -/
theorem c2_witness :
    ParamSize.eval { max_size := 100, read_size := 8, from_syscall := true }
      { regs := { arg := fun _ => 0, syscall_result := 42, sp := 0 },
        mem := fun _ => 0, scratch_ptr := 0, scratch_size := 0 } 30 = some 12 := by
  have h := (c2_eval_characterization
    { max_size := 100, read_size := 8, from_syscall := true }
    { regs := { arg := fun _ => 0, syscall_result := 42, sp := 0 },
      mem := fun _ => 0, scratch_ptr := 0, scratch_size := 0 } 30
    (fun _ => Or.inr rfl)).2 (fun hm => absurd rfl hm) (fun _ => by norm_num)
  rw [h]
  decide

theorem align_scratch_bounds (c m : Nat) (h : c + m + 7 < 2 ^ 64) :
    c + m ≤ align_scratch ((c + m) % 2 ^ 64) ∧
    align_scratch ((c + m) % 2 ^ 64) % 8 = 0 ∧
    align_scratch ((c + m) % 2 ^ 64) ≤ c + m + 7 := by
  unfold align_scratch
  omega

theorem chainInv_append (params : List MemoryParam) (cursor : Nat) (p : MemoryParam)
    (hinv : ScratchChainInv params cursor) (hps : p.scratch = cursor)
    (newc : Nat) (hnc : cursor + p.num_bytes.max_size ≤ newc) :
    ScratchChainInv (params ++ [p]) newc := by
  obtain ⟨hpw, hbound⟩ := hinv
  constructor
  · rw [List.pairwise_append]
    refine ⟨hpw, by simp, ?_⟩
    intro a ha b hb hua hub
    have hb1 : b = p := by simpa using hb
    subst hb1
    rw [hps]
    exact hbound a ha hua
  · intro q hq huq
    rcases List.mem_append.mp hq with hq1 | hq1
    · exact le_trans (hbound q hq1 huq) (by omega)
    · have : q = p := by simpa using hq1
      subst this
      omega

theorem chainInv_append_noscratch (params : List MemoryParam) (cursor : Nat)
    (p : MemoryParam) (hinv : ScratchChainInv params cursor)
    (hmode : ¬ scratchUses p) : ScratchChainInv (params ++ [p]) cursor := by
  obtain ⟨hpw, hbound⟩ := hinv
  constructor
  · rw [List.pairwise_append]
    refine ⟨hpw, by simp, ?_⟩
    intro a ha b hb hua hub
    have hb1 : b = p := by simpa using hb
    exact absurd (hb1 ▸ hub) hmode
  · intro q hq huq
    rcases List.mem_append.mp hq with hq1 | hq1
    · exact hbound q hq1 huq
    · have : q = p := by simpa using hq1
      exact absurd (this ▸ huq) hmode

/-- C10: scratch allocation is a monotone bump-pointer.  Both
`reg_parameter` and `mem_ptr_parameter` never decrease the cursor and
preserve the ordered-disjointness invariant `ScratchChainInv`; and a
scratch-using registration that actually enqueues a parameter gives it the
range starting at the old cursor and advances the cursor past that range,
rounded up to an 8-byte boundary. -/
theorem c10_bump_allocator (st : TaskSyscallState) (t : Task) (arg aobp : Nat)
    (size : ParamSize) (mode : ArgMode)
    (hof : st.scratch + size.max_size + 7 < 2 ^ 64)
    (hinv : ScratchChainInv st.param_list st.scratch) :
    (st.scratch ≤ (st.reg_parameter t arg size mode).1.scratch ∧
      ScratchChainInv (st.reg_parameter t arg size mode).1.param_list
        (st.reg_parameter t arg size mode).1.scratch) ∧
    (st.scratch ≤ (st.mem_ptr_parameter t aobp size mode).1.scratch ∧
      ScratchChainInv (st.mem_ptr_parameter t aobp size mode).1.param_list
        (st.mem_ptr_parameter t aobp size mode).1.scratch) ∧
    (st.preparation_done = false → t.regs.arg arg ≠ 0 → mode ≠ ArgMode.IN_OUT_NO_SCRATCH →
      (st.reg_parameter t arg size mode).1.param_list =
        st.param_list ++
          [{ dest := t.regs.arg arg, scratch := st.scratch, num_bytes := size,
             ptr_in_memory := 0, ptr_in_reg := arg, mode := mode }] ∧
      st.scratch + size.max_size ≤ (st.reg_parameter t arg size mode).1.scratch ∧
      (st.reg_parameter t arg size mode).1.scratch % 8 = 0) := by
  obtain ⟨hal, ha8, hau⟩ := align_scratch_bounds st.scratch size.max_size hof
  refine ⟨?_, ?_, ?_⟩
  · unfold TaskSyscallState.reg_parameter
    by_cases hp : st.preparation_done = true
    · rw [if_pos hp]
      exact ⟨le_refl _, hinv⟩
    · rw [if_neg hp]
      dsimp only
      by_cases hd : t.regs.arg arg = 0
      · rw [if_pos hd]
        exact ⟨le_refl _, hinv⟩
      · rw [if_neg hd]
        by_cases hm : mode ≠ ArgMode.IN_OUT_NO_SCRATCH
        · rw [if_pos hm]
          refine ⟨?_, ?_⟩
          · show st.scratch ≤ align_scratch ((st.scratch + size.max_size) % 2 ^ 64)
            omega
          · refine chainInv_append st.param_list st.scratch _ hinv rfl _ ?_
            show st.scratch + size.max_size ≤ align_scratch ((st.scratch + size.max_size) % 2 ^ 64)
            omega
        · rw [if_neg hm]
          refine ⟨le_refl _, ?_⟩
          exact chainInv_append_noscratch st.param_list st.scratch _ hinv
            (by simpa [scratchUses] using hm)
  · unfold TaskSyscallState.mem_ptr_parameter
    by_cases hp : st.preparation_done = true
    · rw [if_pos hp]
      exact ⟨le_refl _, hinv⟩
    · rw [if_neg hp]
      dsimp only
      by_cases hd : get_remote_ptr t aobp = 0
      · rw [if_pos hd]
        exact ⟨le_refl _, hinv⟩
      · rw [if_neg hd]
        by_cases hm : mode ≠ ArgMode.IN_OUT_NO_SCRATCH
        · rw [if_pos hm]
          refine ⟨?_, ?_⟩
          · show st.scratch ≤ align_scratch ((st.scratch + size.max_size) % 2 ^ 64)
            omega
          · refine chainInv_append st.param_list st.scratch _ hinv rfl _ ?_
            show st.scratch + size.max_size ≤ align_scratch ((st.scratch + size.max_size) % 2 ^ 64)
            omega
        · rw [if_neg hm]
          refine ⟨le_refl _, ?_⟩
          exact chainInv_append_noscratch st.param_list st.scratch _ hinv
            (by simpa [scratchUses] using hm)
  · intro hp hd hm
    unfold TaskSyscallState.reg_parameter
    rw [if_neg (by simp [hp])]
    dsimp only
    rw [if_neg hd, if_pos hm]
    refine ⟨rfl, ?_, ?_⟩
    · show st.scratch + size.max_size ≤ align_scratch ((st.scratch + size.max_size) % 2 ^ 64)
      omega
    · show align_scratch ((st.scratch + size.max_size) % 2 ^ 64) % 8 = 0
      exact ha8

/-- Closed instance of `c10_bump_allocator`: registering a 10-byte OUT
parameter at cursor 0x8000 gives it `[0x8000, 0x800a)` and bumps the cursor to
0x8010. -/
theorem c10_witness :
    (TaskSyscallState.reg_parameter { scratch := 0x8000 }
      { regs := { arg := fun _ => 0x4000, syscall_result := 0, sp := 0 },
        mem := fun _ => 0, scratch_ptr := 0x8000, scratch_size := 4096 } 2
      { max_size := 10 } ArgMode.OUT).1.param_list =
      [{ dest := 0x4000, scratch := 0x8000, num_bytes := { max_size := 10 },
         ptr_in_memory := 0, ptr_in_reg := 2, mode := ArgMode.OUT }] ∧
    0x8000 + 10 ≤ (TaskSyscallState.reg_parameter { scratch := 0x8000 }
      { regs := { arg := fun _ => 0x4000, syscall_result := 0, sp := 0 },
        mem := fun _ => 0, scratch_ptr := 0x8000, scratch_size := 4096 } 2
      { max_size := 10 } ArgMode.OUT).1.scratch := by
  have h := (c10_bump_allocator { scratch := 0x8000 }
    { regs := { arg := fun _ => 0x4000, syscall_result := 0, sp := 0 },
      mem := fun _ => 0, scratch_ptr := 0x8000, scratch_size := 4096 } 2 0
    { max_size := 10 } ArgMode.OUT (by norm_num)
    (by constructor <;> simp)).2.2 rfl (by norm_num) (by simp)
  exact ⟨by rw [h.1]; rfl, h.2.1⟩

theorem sizesLoop_length (t : Task) (params : List MemoryParam) :
    ∀ k sizes, sizesLoop t params k = some sizes → sizes.length = k := by
  intro k
  induction k with
  | zero =>
    intro sizes h
    rw [sizesLoop] at h
    injection h with h1
    simp [← h1]
  | succ k ih =>
    intro sizes h
    rw [sizesLoop] at h
    rcases hm : sizesLoop t params k with _ | s <;> rw [hm] at h
    · exact Option.noConfusion h
    · dsimp only at h
      rcases he : eval_param_size t params k s with _ | v <;> rw [he] at h
      · exact Option.noConfusion h
      · injection h with h1
        rw [← h1, List.length_append, ih s hm]
        rfl

theorem sizesLoop_access (t : Task) (params : List MemoryParam) :
    ∀ n sizes, sizesLoop t params n = some sizes →
      ∀ i, i < n → ∀ hi : i < sizes.length,
        eval_param_size t params i (sizes.take i) = some sizes[i] := by
  intro n
  induction n with
  | zero =>
    intro sizes _ i hin
    omega
  | succ k ih =>
    intro sizes h i hin hi
    rw [sizesLoop] at h
    rcases hm : sizesLoop t params k with _ | s <;> rw [hm] at h
    · exact Option.noConfusion h
    · dsimp only at h
      rcases he : eval_param_size t params k s with _ | v <;> rw [he] at h
      · exact Option.noConfusion h
      · injection h with h1
        subst h1
        have hlen := sizesLoop_length t params k s hm
        by_cases hik : i < k
        · have hi' : i < s.length := by omega
          have hrec := ih s hm i hik hi'
          rw [List.take_append_of_le_length (by omega), List.getElem_append_left hi']
          exact hrec
        · have hieq : i = s.length := by omega
          subst hieq
          rw [List.take_append_of_le_length (le_refl s.length), List.take_length,
            List.getElem_concat_length _ _ _ rfl hi]
          rw [← hlen] at he
          exact he

theorem eval_from_syscall8 (ps : ParamSize) (t : Task) (ac : Nat)
    (hm : ps.mem_ptr = 0) (hs : ps.from_syscall = true) (h8 : ps.read_size = 8)
    (hmax : ps.max_size < USIZE_MAX) (hac : ac ≤ t.regs.syscall_result % 2 ^ 64) :
    ps.eval t ac = some (min ps.max_size (t.regs.syscall_result % 2 ^ 64 - ac)) := by
  unfold ParamSize.eval
  rw [if_neg (by simp [hm])]
  simp only [Option.some_bind]
  rw [if_pos hs, if_pos (Or.inr h8), h8, show (8 : Nat) * 8 = 64 from rfl, if_pos hac]
  simp only [Option.some_bind]
  rw [if_pos (lt_of_le_of_lt (Nat.min_le_left _ _) hmax)]

theorem consumedSum_all_same (params : List MemoryParam) (sizes : List Nat)
    (k : Nat) (hlen : sizes.length = k) (hk : k < params.length)
    (h1 : ∀ p ∈ params, p.num_bytes.mem_ptr = 0 ∧ p.num_bytes.from_syscall = true ∧
      p.num_bytes.read_size = 8) :
    consumedSum params sizes k params[k].num_bytes = sizes.sum := by
  unfold consumedSum
  have htz : sizes.take k = sizes := by rw [← hlen]; exact List.take_length sizes
  rw [htz]
  have hkmem : params[k] ∈ params := List.getElem_mem hk
  obtain ⟨hkm, hks, hkr⟩ := h1 _ hkmem
  have hmap : (((params.take k).zip sizes).map
      (fun pr => if pr.1.num_bytes.is_same_source params[k].num_bytes then pr.2 else 0)) =
      ((params.take k).zip sizes).map Prod.snd := by
    apply List.map_congr_left
    intro pr hpr
    have hpr1 : pr.1 ∈ params := List.take_subset k params (List.of_mem_zip hpr).1
    obtain ⟨hjm, hjs, hjr⟩ := h1 _ hpr1
    have hsrc : pr.1.num_bytes.is_same_source params[k].num_bytes = true := by
      unfold ParamSize.is_same_source
      rw [hjs, hks, hjr, hkr]
      simp
    rw [if_pos hsrc]
  rw [hmap, List.map_snd_zip _ _ (by rw [hlen, List.length_take]; omega)]

theorem sizesLoop_same_source_sum (t : Task) (params : List MemoryParam)
    (h1 : ∀ p ∈ params, p.num_bytes.mem_ptr = 0 ∧ p.num_bytes.from_syscall = true ∧
      p.num_bytes.read_size = 8 ∧ p.num_bytes.max_size < USIZE_MAX) :
    ∀ k, k ≤ params.length →
      ∃ sizes, sizesLoop t params k = some sizes ∧ sizes.length = k ∧
        sizes.sum = min (((params.take k).map (fun p => p.num_bytes.max_size)).sum)
          (t.regs.syscall_result % 2 ^ 64) := by
  intro k
  induction k with
  | zero =>
    intro _
    exact ⟨[], rfl, rfl, by simp⟩
  | succ k ih =>
    intro hk1
    obtain ⟨sizes, hloop, hlen, hsum⟩ := ih (by omega)
    have hklt : k < params.length := by omega
    have hget : params.get? k = some params[k] := List.get?_eq_get hklt
    have hkmem : params[k] ∈ params := List.getElem_mem hklt
    obtain ⟨hkm, hks, hkr, hkmax⟩ := h1 _ hkmem
    have hcs : consumedSum params sizes k params[k].num_bytes = sizes.sum :=
      consumedSum_all_same params sizes k hlen hklt
        (fun p hp => ⟨(h1 p hp).1, (h1 p hp).2.1, (h1 p hp).2.2.1⟩)
    have hacbound : sizes.sum ≤ t.regs.syscall_result % 2 ^ 64 := by
      rw [hsum]; omega
    have hev : eval_param_size t params k sizes =
        some (min params[k].num_bytes.max_size
          (t.regs.syscall_result % 2 ^ 64 - sizes.sum)) := by
      unfold eval_param_size
      rw [if_pos hlen]
      simp only [hget]
      rw [hcs]
      exact eval_from_syscall8 _ t _ hkm hks hkr hkmax hacbound
    refine ⟨sizes ++ [min params[k].num_bytes.max_size
      (t.regs.syscall_result % 2 ^ 64 - sizes.sum)], ?_, ?_, ?_⟩
    · rw [sizesLoop, hloop]
      dsimp only
      rw [hev]
    · rw [List.length_append, hlen]; rfl
    · rw [List.sum_append]
      have htake : params.take (k + 1) = (params.take k).concat params[k] :=
        (List.take_concat_get params k hklt).symm
      rw [htake, List.concat_eq_append, List.map_append, List.sum_append]
      simp only [List.map_cons, List.map_nil, List.sum_cons, List.sum_nil]
      rw [hsum]
      omega

/-- C1: the finalizer assigns sizes prefix-greedily.  (1) For parameters all
drawing their size from the syscall result (`ssize_t`, read_size 8) with
finite `max_size`s, the assigned sizes exist and sum to
`min (Σ max_sizes, result)`.  (2) In general, the size assigned to parameter
`i` equals `ParamSize.eval` applied with `already_consumed` equal to the sum
of the sizes of earlier same-source parameters.  (3) In the concrete recvmsg
scenario with iovecs of lengths 10 and 20 and kernel result 15, the trace
records 56 bytes at the msghdr, 10 bytes at 0xA and 5 bytes at 0xB. -/
theorem c1_greedy_distribution (t : Task) (params : List MemoryParam) :
    ((∀ p ∈ params, p.num_bytes.mem_ptr = 0 ∧ p.num_bytes.from_syscall = true ∧
        p.num_bytes.read_size = 8 ∧ p.num_bytes.max_size < USIZE_MAX) →
      ∃ sizes, computeActualSizes t params = some sizes ∧
        sizes.sum = min ((params.map (fun p => p.num_bytes.max_size)).sum)
          (t.regs.syscall_result % 2 ^ 64)) ∧
    (∀ sizes, computeActualSizes t params = some sizes →
      ∀ i, ∀ hip : i < params.length, ∀ his : i < sizes.length,
        params[i].num_bytes.eval t (consumedSum params sizes i params[i].num_bytes) =
          some sizes[i]) ∧
    recvmsgExampleLog = some [(0x1000, 56), (0xA, 10), (0xB, 5)] := by
  refine ⟨?_, ?_, ?_⟩
  · intro h1
    obtain ⟨sizes, hloop, _, hsum⟩ :=
      sizesLoop_same_source_sum t params h1 params.length (le_refl _)
    exact ⟨sizes, hloop, by rw [hsum, List.take_length]⟩
  · intro sizes hc i hip his
    have hacc := sizesLoop_access t params params.length sizes hc i hip his
    unfold eval_param_size at hacc
    rw [if_pos (by rw [List.length_take]; omega), List.get?_eq_get hip] at hacc
    dsimp only at hacc
    simp only [List.get_eq_getElem] at hacc
    have hcs : consumedSum params (sizes.take i) i params[i].num_bytes =
        consumedSum params sizes i params[i].num_bytes := by
      unfold consumedSum
      rw [List.take_take]
      simp
    rw [hcs] at hacc
    exact hacc
  · decide

/-- Closed instance of `c1_greedy_distribution`: two syscall-result-sized
parameters with maxes 10 and 20 against a result of 15 receive sizes summing
to `min 30 15 = 15`. -/
theorem c1_witness :
    Option.map List.sum (computeActualSizes
      { regs := { arg := fun _ => 0, syscall_result := 15, sp := 0 },
        mem := fun _ => 0, scratch_ptr := 0, scratch_size := 0 }
      [{ dest := 0xA, num_bytes := { max_size := 10, read_size := 8, from_syscall := true } },
       { dest := 0xB, num_bytes := { max_size := 20, read_size := 8, from_syscall := true } }]) =
      some 15 := by
  obtain ⟨sizes, hc, hsum⟩ := (c1_greedy_distribution
    { regs := { arg := fun _ => 0, syscall_result := 15, sp := 0 },
      mem := fun _ => 0, scratch_ptr := 0, scratch_size := 0 }
    [{ dest := 0xA, num_bytes := { max_size := 10, read_size := 8, from_syscall := true } },
     { dest := 0xB, num_bytes := { max_size := 20, read_size := 8, from_syscall := true } }]).1
    (by intro p hp; fin_cases hp <;> refine ⟨rfl, rfl, rfl, by decide⟩)
  rw [hc]
  show some sizes.sum = some 15
  rw [hsum]
  rfl

theorem writeByte_ne (mem : Nat → Nat) (addr v a : Nat) (h : a ≠ addr) :
    writeByte mem addr v a = mem a := if_neg h

theorem writeBytesLE_outside (a : Nat) :
    ∀ n mem addr v, (a < addr ∨ addr + n ≤ a) →
      writeBytesLE mem addr n v a = mem a := by
  intro n
  induction n with
  | zero => intro mem addr v _; rfl
  | succ n ih =>
    intro mem addr v h
    rw [writeBytesLE, ih _ _ _ (by omega), writeByte_ne mem addr _ a (by omega)]

theorem readMemBytes_congr (m1 m2 : Nat → Nat) :
    ∀ n addr, (∀ a, addr ≤ a → a < addr + n → m1 a = m2 a) →
      readMemBytes m1 addr n = readMemBytes m2 addr n := by
  intro n
  induction n with
  | zero => intro addr _; rfl
  | succ n ih =>
    intro addr h
    rw [readMemBytes, readMemBytes, h addr (le_refl _) (by omega),
      ih (addr + 1) (fun a ha1 ha2 => h a (by omega) (by omega))]

theorem readMemBytes_writeBytesLE :
    ∀ n mem addr v, readMemBytes (writeBytesLE mem addr n v) addr n = v % 2 ^ (8 * n) := by
  intro n
  induction n with
  | zero => intro mem addr v; simp [readMemBytes, Nat.mod_one]
  | succ n ih =>
    intro mem addr v
    rw [writeBytesLE, readMemBytes]
    rw [writeBytesLE_outside addr n _ (addr + 1) _ (by omega)]
    rw [show writeByte mem addr (v % 256) addr = v % 256 from if_pos rfl]
    rw [ih]
    have h2 : (2 : Nat) ^ (8 * (n + 1)) = 256 * 2 ^ (8 * n) := by ring
    rw [h2, Nat.mod_mul, show v % 256 % 256 = v % 256 from by omega]

theorem restoreParams_cons (r : Regs) (t : Task) (c : Bool) (p : MemoryParam)
    (rest : List MemoryParam) :
    restoreParams r t c (p :: rest) =
      restoreParams (if p.ptr_in_reg ≠ 0 then r.set_arg p.ptr_in_reg p.dest else r)
        (if p.ptr_in_memory ≠ 0 then set_remote_ptr t p.ptr_in_memory p.dest else t)
        (if p.ptr_in_memory ≠ 0 then true else c) rest := by
  rw [restoreParams]
  by_cases hm : p.ptr_in_memory ≠ 0
  · rw [if_pos hm, if_pos hm, if_pos hm]
  · rw [if_neg hm, if_neg hm, if_neg hm]

theorem restoreParams_arg_frame (a : Nat) :
    ∀ params r t c, (∀ p ∈ params, p.ptr_in_reg = 0 ∨ p.ptr_in_reg ≠ a) →
      ((restoreParams r t c params).1).arg a = r.arg a := by
  intro params
  induction params with
  | nil => intro r t c _; rfl
  | cons p rest ih =>
    intro r t c h
    rw [restoreParams_cons, ih _ _ _ (fun q hq => h q (by simp [hq]))]
    by_cases hpr : p.ptr_in_reg ≠ 0
    · rw [if_pos hpr]
      have hne : p.ptr_in_reg ≠ a := by
        rcases h p (by simp) with h1 | h1
        · exact absurd h1 hpr
        · exact h1
      show (if a = p.ptr_in_reg then p.dest else r.arg a) = r.arg a
      exact if_neg (fun h1 => hne h1.symm)
    · rw [if_neg hpr]

theorem restoreParams_mem_frame (x : Nat) :
    ∀ params r t c,
      (∀ p ∈ params, p.ptr_in_memory = 0 ∨ x < p.ptr_in_memory ∨ p.ptr_in_memory + 8 ≤ x) →
      ((restoreParams r t c params).2.1).mem x = t.mem x := by
  intro params
  induction params with
  | nil => intro r t c _; rfl
  | cons p rest ih =>
    intro r t c h
    rw [restoreParams_cons, ih _ _ _ (fun q hq => h q (by simp [hq]))]
    by_cases hpm : p.ptr_in_memory ≠ 0
    · rw [if_pos hpm]
      have hout : x < p.ptr_in_memory ∨ p.ptr_in_memory + 8 ≤ x := by
        rcases h p (by simp) with h1 | h1
        · exact absurd h1 hpm
        · exact h1
      exact writeBytesLE_outside x 8 t.mem p.ptr_in_memory p.dest hout
    · rw [if_neg hpm]

theorem restoreParams_restores :
    ∀ params (r : Regs) (t : Task) (c : Bool),
      List.Pairwise (fun p q : MemoryParam => p.ptr_in_reg = 0 ∨ q.ptr_in_reg = 0 ∨
        p.ptr_in_reg ≠ q.ptr_in_reg) params →
      List.Pairwise (fun p q : MemoryParam => p.ptr_in_memory = 0 ∨ q.ptr_in_memory = 0 ∨
        p.ptr_in_memory + 8 ≤ q.ptr_in_memory ∨ q.ptr_in_memory + 8 ≤ p.ptr_in_memory) params →
      (∀ p ∈ params, p.ptr_in_reg ≠ 0 →
        ((restoreParams r t c params).1).arg p.ptr_in_reg = p.dest) ∧
      (∀ p ∈ params, p.ptr_in_memory ≠ 0 →
        readMemBytes ((restoreParams r t c params).2.1).mem p.ptr_in_memory 8 =
          p.dest % 2 ^ 64) := by
  intro params
  induction params with
  | nil => intro r t c _ _; exact ⟨by simp, by simp⟩
  | cons p rest ih =>
    intro r t c hr hm
    rw [List.pairwise_cons] at hr hm
    obtain ⟨hr1, hr2⟩ := hr
    obtain ⟨hm1, hm2⟩ := hm
    constructor
    · intro q hq hqr
      rw [restoreParams_cons]
      rcases List.mem_cons.mp hq with hq1 | hq1
      · subst hq1
        rw [restoreParams_arg_frame q.ptr_in_reg rest _ _ _ ?_]
        · rw [if_pos hqr]
          simp [Regs.set_arg]
        · intro q' hq'
          rcases hr1 q' hq' with h1 | h1 | h1
          · exact absurd h1 hqr
          · exact Or.inl h1
          · exact Or.inr (fun h2 => h1 h2.symm)
      · exact (ih _ _ _ hr2 hm2).1 q hq1 hqr
    · intro q hq hqm
      rw [restoreParams_cons]
      rcases List.mem_cons.mp hq with hq1 | hq1
      · subst hq1
        have hcongr : readMemBytes
            ((restoreParams (if q.ptr_in_reg ≠ 0 then r.set_arg q.ptr_in_reg q.dest else r)
              (if q.ptr_in_memory ≠ 0 then set_remote_ptr t q.ptr_in_memory q.dest else t)
              (if q.ptr_in_memory ≠ 0 then true else c) rest).2.1).mem q.ptr_in_memory 8 =
            readMemBytes
              ((if q.ptr_in_memory ≠ 0 then set_remote_ptr t q.ptr_in_memory q.dest
                else t)).mem q.ptr_in_memory 8 := by
          apply readMemBytes_congr
          intro a ha1 ha2
          apply restoreParams_mem_frame
          intro q' hq'
          rcases hm1 q' hq' with h1 | h1 | h1 | h1
          · exact absurd h1 hqm
          · exact Or.inl h1
          · exact Or.inr (Or.inl (by omega))
          · exact Or.inr (Or.inr (by omega))
        rw [hcongr, if_pos hqm]
        show readMemBytes (writeBytesLE t.mem q.ptr_in_memory 8 q.dest) q.ptr_in_memory 8 = _
        rw [readMemBytes_writeBytesLE 8 t.mem q.ptr_in_memory q.dest]
      · exact (ih _ _ _ hr2 hm2).2 q hq1 hqm

/-- C3: after a scratch-enabled `process_syscall_results`, every argument
register that was redirected to scratch (`ptr_in_reg` set) again holds the
parameter's original `dest` value, and every in-memory pointer slot that was
rewritten to scratch (`ptr_in_memory` set) again holds the original `dest`
pointer — i.e. all registers and in-memory indirections written by the core
equal their values at syscall entry.  (The slots are assumed pairwise
non-overlapping — overlapping registrations would be the
`relocate_pointer_to_scratch` fatal error of C6.) -/
theorem c3_restores_origin (st : TaskSyscallState) (t : Task) (wb : Bool) (t2 : Task)
    (log : List (Nat × Nat))
    (hp : st.process_syscall_results t wb = some (t2, log))
    (hs : st.scratch_enabled = true)
    (hregs : List.Pairwise (fun p q : MemoryParam => p.ptr_in_reg = 0 ∨ q.ptr_in_reg = 0 ∨
      p.ptr_in_reg ≠ q.ptr_in_reg) st.param_list)
    (hmem : List.Pairwise (fun p q : MemoryParam => p.ptr_in_memory = 0 ∨ q.ptr_in_memory = 0 ∨
      p.ptr_in_memory + 8 ≤ q.ptr_in_memory ∨ q.ptr_in_memory + 8 ≤ p.ptr_in_memory)
      st.param_list) :
    (∀ p ∈ st.param_list, p.ptr_in_reg ≠ 0 → t2.regs.arg p.ptr_in_reg = p.dest) ∧
    (∀ p ∈ st.param_list, p.ptr_in_memory ≠ 0 →
      readMemBytes t2.mem p.ptr_in_memory 8 = p.dest % 2 ^ 64) := by
  unfold TaskSyscallState.process_syscall_results at hp
  by_cases hpd : st.preparation_done = true
  · rw [if_pos hpd, if_pos hs] at hp
    dsimp only at hp
    rcases hstep : step1Loop st.param_list t.scratch_ptr
        ((List.range (st.scratch - t.scratch_ptr)).map
          (fun k => t.mem (t.scratch_ptr + k) % 256)) wb t st.param_list.length
      with _ | pr <;> rw [hstep] at hp
    · exact Option.noConfusion hp
    · dsimp only at hp
      injection hp with hp1
      injection hp1 with hpt hpl
      have hres := restoreParams_restores st.param_list t.regs pr.1 false hregs hmem
      constructor
      · intro p hpmem hpr
        rw [← hpt]
        exact hres.1 p hpmem hpr
      · intro p hpmem hpm
        rw [← hpt]
        exact hres.2 p hpmem hpm
  · rw [if_neg hpd] at hp
    exact Option.noConfusion hp

/-- Closed instance of `c3_restores_origin`: after finalization, argument
register 2 again holds 0x4000 and the pointer slot at 0x4000 again holds the
original buffer pointer 0x5000. -/
theorem c3_witness :
    Option.map (fun r : Task × List (Nat × Nat) =>
        (r.1.regs.arg 2, readMemBytes r.1.mem 0x4000 8))
      (TaskSyscallState.process_syscall_results c3St c3Task true) =
      some (0x4000, 0x5000) := by
  rcases hcase : TaskSyscallState.process_syscall_results c3St c3Task true with _ | r
  · have hns : (TaskSyscallState.process_syscall_results c3St c3Task true).isSome = true := by
      decide
    rw [hcase] at hns
    simp at hns
  · have h := c3_restores_origin c3St c3Task true r.1 r.2 (by rw [hcase]) rfl
      (by decide) (by decide)
    have h1 := h.1 c3P1 (by decide) (by decide)
    have h2 := h.2 c3P2 (by decide) (by decide)
    show some (r.1.regs.arg 2, readMemBytes r.1.mem 0x4000 8) = some (0x4000, 0x5000)
    rw [show r.1.regs.arg 2 = 0x4000 from h1,
      show readMemBytes r.1.mem 0x4000 8 = 0x5000 from h2]

theorem done_preparing_prevent (st : TaskSyscallState) (t : Task)
    (hwf : subU64 st.scratch t.scratch_ptr < 2 ^ 63) :
    ∃ r, st.done_preparing t PREVENT_SWITCH = some r ∧ r.1.expect_errno = st.expect_errno := by
  by_cases hp : st.preparation_done = true
  · refine ⟨(st, t, st.switchable), ?_, rfl⟩
    simp [TaskSyscallState.done_preparing, hp]
  · refine ⟨({ st with preparation_done := true, switchable := PREVENT_SWITCH }, t,
      PREVENT_SWITCH), ?_, rfl⟩
    exact done_preparing_first_early st t PREVENT_SWITCH PREVENT_SWITCH
      (by simpa using hp) hwf (by simp) (Or.inl rfl)

/-- C7: the preparers of the six known families (futex, fcntl, prctl,
quotactl, ipc, socketcall) set `expect_errno = EINVAL` on every unknown
sub-command and still return normally; and, whenever `expect_errno = E` is
set, the exit handler returns early, performing no further result processing,
after asserting that the kernel's result equals `-E` (aborting when it does
not). -/
theorem c7_unknown_subcommand_einval (t : Task) (st : TaskSyscallState)
    (hwf : subU64 st.scratch t.scratch_ptr < 2 ^ 63) :
    (futexCmd t ∉ ([0, 9, 4, 5, 1] : List Nat) →
      ∃ r, rec_prepare_futex t st = some r ∧ r.1.expect_errno = EINVAL) ∧
    ((t.regs.arg 2) % 2 ^ 32 ∉ ([0, 1, 3, 4, 2, 6, 13, 8, 15, 10, 5, 12, 16, 7, 14] : List Nat) →
      ∃ r, rec_prepare_fcntl t st = some r ∧ r.1.expect_errno = EINVAL) ∧
    ((t.regs.arg 1) % 2 ^ 32 ∉ ([19, 9, 11, 2, 25, 5, 16, 15, 22] : List Nat) →
      ∃ r, rec_prepare_prctl t st = some r ∧ r.1.expect_errno = EINVAL) ∧
    ((t.regs.arg 1) % 2 ^ 32 &&& SUBCMDMASK ∉
        ([0x800007, 0x800005, 0x800004, 0x800008, 0x800002, 0x800003, 0x800006,
          0x800001] : List Nat) →
      ∃ r, rec_prepare_quotactl t st = some r ∧ r.1.expect_errno = EINVAL) ∧
    ((t.regs.arg 1) % 2 ^ 64 ∉ ([14, 13, 11, 12] : List Nat) →
      ∃ r, rec_prepare_ipc t st = some r ∧ r.1.expect_errno = EINVAL) ∧
    ((t.regs.arg 1) % 2 ^ 32 ∉
        ([1, 3, 2, 4, 9, 11, 14, 13, 15, 8, 7, 6, 10, 5, 18, 12, 17, 19, 16, 20] : List Nat) →
      ∃ r, prepare_socketcall t st = some r ∧ r.1.expect_errno = EINVAL) ∧
    (st.expect_errno ≠ 0 →
      (t.syscall_result_signed = -(st.expect_errno : Int) →
        rec_process_expect_errno st t = some true) ∧
      (t.syscall_result_signed ≠ -(st.expect_errno : Int) →
        rec_process_expect_errno st t = none)) := by
  have key : ∀ st1 : TaskSyscallState, st1.scratch = st.scratch → st1.expect_errno = EINVAL →
      ∃ r, st1.done_preparing t PREVENT_SWITCH = some r ∧ r.1.expect_errno = EINVAL := by
    intro st1 hsc he
    obtain ⟨r, hr, hre⟩ := done_preparing_prevent st1 t (by rw [hsc]; exact hwf)
    exact ⟨r, hr, by rw [hre, he]⟩
  refine ⟨?_, ?_, ?_, ?_, ?_, ?_, ?_⟩
  · intro hop
    simp only [List.mem_cons, List.not_mem_nil, or_false, not_or] at hop
    obtain ⟨h0, h9, h4, h5, h1⟩ := hop
    unfold rec_prepare_futex
    dsimp only
    rw [if_neg (by tauto), if_neg (by tauto), if_neg h1]
    exact key _ rfl rfl
  · intro hop
    simp only [List.mem_cons, List.not_mem_nil, or_false, not_or] at hop
    obtain ⟨ha, hb, hc, hd, he, hf, hg, hh, hi, hj, hk, hl, hm, hn, ho⟩ := hop
    unfold rec_prepare_fcntl
    dsimp only
    rw [if_neg (by tauto), if_neg (show ¬t.regs.arg 2 % 2 ^ 32 = F_GETLK from hk),
      if_neg hl, if_neg hm, if_neg (by tauto)]
    exact key _ rfl rfl
  · intro hop
    simp only [List.mem_cons, List.not_mem_nil, or_false, not_or] at hop
    obtain ⟨ha, hb, hc, hd, he, hf, hg, hh, hi⟩ := hop
    unfold rec_prepare_prctl
    dsimp only
    rw [if_neg (by tauto), if_neg hg, if_neg (by tauto)]
    exact key _ rfl rfl
  · intro hop
    simp only [List.mem_cons, List.not_mem_nil, or_false, not_or] at hop
    obtain ⟨ha, hb, hc, hd, he, hf, hg, hh⟩ := hop
    unfold rec_prepare_quotactl
    dsimp only
    rw [if_neg (show ¬t.regs.arg 1 % 2 ^ 32 &&& SUBCMDMASK = Q_GETQUOTA from ha),
      if_neg hb, if_neg hc, if_neg hd, if_neg (by tauto)]
    exact key _ rfl rfl
  · intro hop
    simp only [List.mem_cons, List.not_mem_nil, or_false, not_or] at hop
    obtain ⟨ha, hb, hc, hd⟩ := hop
    unfold rec_prepare_ipc
    dsimp only
    rw [if_neg (by simpa [MSGCTL] using ha), if_neg hb, if_neg hc, if_neg hd]
    exact key _ rfl rfl
  · intro hop
    simp only [List.mem_cons, List.not_mem_nil, or_false, not_or] at hop
    obtain ⟨h1, h3, h2, h4, h9, h11, h14, h13, h15, h8, h7, h6, h10, h5, h18, h12, h17,
      h19, h16, h20⟩ := hop
    unfold prepare_socketcall
    dsimp only
    rw [if_neg (by tauto), if_neg (by simpa [SYS_GETSOCKOPT] using h15), if_neg h8,
      if_neg (by tauto), if_neg h10, if_neg h5, if_neg h18, if_neg h12, if_neg h17,
      if_neg h19, if_neg h16, if_neg h20]
    exact key _ rfl rfl
  · intro hne
    constructor
    · intro heq
      unfold rec_process_expect_errno
      rw [if_pos hne, if_pos heq]
    · intro hne2
      unfold rec_process_expect_errno
      rw [if_pos hne, if_neg hne2]

/-- Closed instance of `c7_unknown_subcommand_einval`: each family preparer
records `expect_errno = 22` on the unknown sub-commands 99/777, and the exit
check passes exactly when the kernel returned `-22`. -/
theorem c7_witness :
    Option.map (fun r => r.1.expect_errno) (rec_prepare_futex c7Task {}) = some 22 ∧
    Option.map (fun r => r.1.expect_errno) (rec_prepare_fcntl c7Task {}) = some 22 ∧
    Option.map (fun r => r.1.expect_errno) (rec_prepare_prctl c7Task {}) = some 22 ∧
    Option.map (fun r => r.1.expect_errno) (rec_prepare_quotactl c7Task {}) = some 22 ∧
    Option.map (fun r => r.1.expect_errno) (rec_prepare_ipc c7Task {}) = some 22 ∧
    Option.map (fun r => r.1.expect_errno) (prepare_socketcall c7Task {}) = some 22 ∧
    rec_process_expect_errno { expect_errno := 22 } c7ExitTask = some true := by
  have h := c7_unknown_subcommand_einval c7Task {} (by decide)
  obtain ⟨r1, hr1, he1⟩ := h.1 (by decide)
  obtain ⟨r2, hr2, he2⟩ := h.2.1 (by decide)
  obtain ⟨r3, hr3, he3⟩ := h.2.2.1 (by decide)
  obtain ⟨r4, hr4, he4⟩ := h.2.2.2.1 (by decide)
  obtain ⟨r5, hr5, he5⟩ := h.2.2.2.2.1 (by decide)
  obtain ⟨r6, hr6, he6⟩ := h.2.2.2.2.2.1 (by decide)
  have h7 := c7_unknown_subcommand_einval c7ExitTask { expect_errno := 22 } (by decide)
  refine ⟨?_, ?_, ?_, ?_, ?_, ?_, ?_⟩
  · rw [hr1]; exact congrArg some he1
  · rw [hr2]; exact congrArg some he2
  · rw [hr3]; exact congrArg some he3
  · rw [hr4]; exact congrArg some he4
  · rw [hr5]; exact congrArg some he5
  · rw [hr6]; exact congrArg some he6
  · exact (h7.2.2.2.2.2.2 (by decide)).1 (by decide)

theorem step1Loop_no_writeback (params : List MemoryParam) (base : Nat) (data : List Nat)
    (t : Task) : ∀ k tk sizes, step1Loop params base data false t k = some (tk, sizes) →
      tk = t := by
  intro k
  induction k with
  | zero =>
    intro tk sizes h
    injection h with h1
    injection h1 with h2 _
    exact h2.symm
  | succ k ih =>
    intro tk sizes h
    rw [step1Loop] at h
    rcases hs : step1Loop params base data false t k with _ | pr <;> rw [hs] at h
    · exact Option.noConfusion h
    · dsimp only at h
      rcases hg : params.get? k with _ | param <;> rw [hg] at h
      · exact Option.noConfusion h
      · dsimp only at h
        rcases he : eval_param_size pr.1 params k pr.2 with _ | v <;> rw [he] at h
        · exact Option.noConfusion h
        · dsimp only at h
          rw [if_neg (by simp)] at h
          injection h with h1
          injection h1 with h2 _
          rw [← h2]
          exact ih pr.1 pr.2 (by rw [hs])

theorem restoreParams_no_mem_writes :
    ∀ params, (∀ p ∈ params, p.ptr_in_memory = 0) →
      ∀ (r : Regs) (t : Task) (c : Bool), (restoreParams r t c params).2.1 = t := by
  intro params
  induction params with
  | nil => intro _ r t c; rfl
  | cons p rest ih =>
    intro h r t c
    rw [restoreParams_cons, ih (fun q hq => h q (by simp [hq])) _ _ _,
      if_neg (by simp [h p (by simp)])]

/-- C8 counterexample: the nanosleep preparer registers the remaining-time
parameter with the default argument mode `OUT`, not `IN_OUT` as the claim
states. -/
theorem c8_counterexample :
    Option.map (fun r => r.1.param_list.map (fun p => p.mode))
      (rec_prepare_nanosleep
        { regs := { arg := fun i => if i = 2 then 0x3000 else 0, syscall_result := 0, sp := 0 },
          mem := fun _ => 0, scratch_ptr := 0, scratch_size := 4096 } {}) =
      some [ArgMode.OUT] ∧
    ArgMode.OUT ≠ ArgMode.IN_OUT := by
  exact ⟨by decide, by decide⟩

/-- C8 (amended): the nanosleep preparer registers the remaining-time
out-parameter (argument register 2) as a memory parameter with mode `OUT`
(not `IN_OUT`) and returns `ALLOW_SWITCH`; and at syscall exit the
remaining-time value is written back only when the kernel's return value
(truncated to `int`) is non-zero — with a zero result `NO_WRITE_BACK` is used
and the tracee's memory is left untouched. -/
theorem c8_nanosleep_out_param (t : Task) (st : TaskSyscallState)
    (h0 : st.preparation_done = false) (hempty : st.param_list = [])
    (harg : t.regs.arg 2 ≠ 0) (hcur : st.scratch = t.scratch_ptr)
    (hal8 : t.scratch_ptr % 8 = 0) (hbound : t.scratch_ptr + 24 < 2 ^ 64)
    (hcap : 16 ≤ t.scratch_size) :
    (rec_prepare_nanosleep t st =
      some ({ st with
              param_list := [{ dest := t.regs.arg 2, scratch := st.scratch,
                               num_bytes := { max_size := 16 },
                               ptr_in_memory := 0, ptr_in_reg := 2, mode := ArgMode.OUT }],
              scratch := st.scratch + 16, switchable := ALLOW_SWITCH,
              preparation_done := true, scratch_enabled := true },
        { t with regs := t.regs.set_arg 2 st.scratch }, ALLOW_SWITCH)) ∧
    (∀ (st2 : TaskSyscallState) (t2 : Task), t2.regs.syscall_result % 2 ^ 32 = 0 →
      (∀ p ∈ st2.param_list, p.ptr_in_memory = 0) →
      ∀ t3 log, rec_process_nanosleep st2 t2 = some (t3, log) → t3.mem = t2.mem) ∧
    (∀ (st2 : TaskSyscallState) (t2 : Task), t2.regs.syscall_result % 2 ^ 32 ≠ 0 →
      rec_process_nanosleep st2 t2 = st2.process_syscall_results t2 true) := by
  refine ⟨?_, ?_, ?_⟩
  · have hreg : st.reg_parameter t 2 { max_size := 16 } ArgMode.OUT =
        ({ st with
            param_list := st.param_list ++
              [{ dest := t.regs.arg 2, scratch := st.scratch, num_bytes := { max_size := 16 },
                 ptr_in_memory := 0, ptr_in_reg := 2, mode := ArgMode.OUT }],
            scratch := align_scratch ((st.scratch + 16) % 2 ^ 64) }, t.regs.arg 2) := by
      unfold TaskSyscallState.reg_parameter
      rw [if_neg (by simp [h0])]
      dsimp only
      rw [if_neg harg, if_pos (by decide : ArgMode.OUT ≠ ArgMode.IN_OUT_NO_SCRATCH)]
    have halign : align_scratch ((st.scratch + 16) % 2 ^ 64) = st.scratch + 16 := by
      unfold align_scratch
      omega
    unfold rec_prepare_nanosleep
    rw [show (sizeof_timespec : Nat) = 16 from rfl, hreg]
    dsimp only
    rw [hempty, List.nil_append, halign]
    unfold TaskSyscallState.done_preparing
    rw [if_neg (by simp [h0])]
    dsimp only
    have hsnb : subU64 (st.scratch + 16) t.scratch_ptr = 16 := by
      rw [subU64_of_le _ _ (by omega) (by omega)]
      omega
    rw [hsnb, if_neg (by omega : ¬2 ^ 63 ≤ 16)]
    have hsw2 : (if ALLOW_SWITCH = ALLOW_SWITCH ∧ 16 > t.scratch_size
        then PREVENT_SWITCH else ALLOW_SWITCH) = ALLOW_SWITCH := by
      rw [if_neg]
      rintro ⟨_, hlt⟩
      omega
    rw [hsw2, if_neg (by rintro (h1 | h1) <;> simp at h1)]
    rfl
  · intro st2 t2 hz hnomem t3 log hp
    unfold rec_process_nanosleep at hp
    rw [show decide (t2.regs.syscall_result % 2 ^ 32 ≠ 0) = false from
      decide_eq_false (by omega)] at hp
    unfold TaskSyscallState.process_syscall_results at hp
    by_cases hpd : st2.preparation_done = true
    · rw [if_pos hpd] at hp
      by_cases hse : st2.scratch_enabled = true
      · rw [if_pos hse] at hp
        dsimp only at hp
        rcases hstep : step1Loop st2.param_list t2.scratch_ptr
            ((List.range (st2.scratch - t2.scratch_ptr)).map
              (fun k => t2.mem (t2.scratch_ptr + k) % 256)) false t2 st2.param_list.length
          with _ | pr <;> rw [hstep] at hp
        · exact Option.noConfusion hp
        · dsimp only at hp
          injection hp with hp1
          injection hp1 with hpt _
          have ht1 : pr.1 = t2 :=
            step1Loop_no_writeback st2.param_list t2.scratch_ptr _ t2 _ pr.1 pr.2
              (by rw [hstep])
          have hrest := restoreParams_no_mem_writes st2.param_list hnomem t2.regs pr.1 false
          rw [← hpt]
          show (restoreParams t2.regs pr.1 false st2.param_list).2.1.mem = t2.mem
          rw [hrest, ht1]
      · rw [if_neg hse] at hp
        rcases hsz : computeActualSizes t2 st2.param_list with _ | sizes <;> rw [hsz] at hp
        · exact Option.noConfusion hp
        · dsimp only at hp
          injection hp with hp1
          injection hp1 with hpt _
          rw [← hpt]
    · rw [if_neg hpd] at hp
      exact Option.noConfusion hp
  · intro st2 t2 hnz
    unfold rec_process_nanosleep
    rw [show decide (t2.regs.syscall_result % 2 ^ 32 ≠ 0) = true from decide_eq_true hnz]

/-- Closed instance of `c8_nanosleep_out_param`: the concrete nanosleep
preparation registers exactly one OUT parameter for the buffer 0x3000 and
allows switching. -/
theorem c8_witness :
    Option.map (fun r => (r.1.param_list, r.2.2))
      (rec_prepare_nanosleep
        { regs := { arg := fun i => if i = 2 then 0x3000 else 0, syscall_result := 0, sp := 0 },
          mem := fun _ => 0, scratch_ptr := 0x8000, scratch_size := 4096 }
        { scratch := 0x8000 }) =
      some ([{ dest := 0x3000, scratch := 0x8000, num_bytes := { max_size := 16 },
               ptr_in_memory := 0, ptr_in_reg := 2, mode := ArgMode.OUT }],
        ALLOW_SWITCH) := by
  have h := (c8_nanosleep_out_param
    { regs := { arg := fun i => if i = 2 then 0x3000 else 0, syscall_result := 0, sp := 0 },
      mem := fun _ => 0, scratch_ptr := 0x8000, scratch_size := 4096 }
    { scratch := 0x8000 } rfl rfl (by decide) rfl (by decide) (by decide) (by decide)).1
  rw [h]
  rfl

/-- C9 counterexample: for an `open` of a blacklisted path (here the path
"/e", bytes 47 101), the syscall-entry hook leaves the result register
untouched (the kernel actually runs the open), and it is the syscall-exit
hook that installs `-ENOENT`; the claim's "at entry (before the kernel runs
the call)" is false. -/
theorem c9_counterexample :
    (rec_prepare_open
        { regs := { arg := fun i => if i = 1 then 0x600 else 0, syscall_result := 3, sp := 0 },
          mem := fun a => if a = 0x600 then 47 else if a = 0x601 then 101 else 0,
          scratch_ptr := 0, scratch_size := 0 }
        {}).2.1.regs.syscall_result ≠ (2 ^ 64 - ENOENT) % 2 ^ 64 ∧
    (rec_process_open (fun s => s == [47, 101])
        { regs := { arg := fun i => if i = 1 then 0x600 else 0, syscall_result := 3, sp := 0 },
          mem := fun a => if a = 0x600 then 47 else if a = 0x601 then 101 else 0,
          scratch_ptr := 0, scratch_size := 0 }).regs.syscall_result =
      (2 ^ 64 - ENOENT) % 2 ^ 64 := by
  exact ⟨by decide, by decide⟩

/-- C9 (amended): the blacklisted-`open` rewrite happens at syscall exit, not
at entry: the entry hook (the `default` branch of `rec_prepare_syscall_arch`)
returns `PREVENT_SWITCH` leaving the task and state untouched, while the exit
hook sets the result register to `-ENOENT` for a blacklisted pathname (so the
tracee still observes `-ENOENT`, although the kernel has already executed the
open) and changes nothing else; a non-blacklisted pathname leaves the task
unchanged. -/
theorem c9_open_rewrite_at_exit (bl : List Nat → Bool) (t : Task) (st : TaskSyscallState) :
    rec_prepare_open t st = (st, t, PREVENT_SWITCH) ∧
    (bl (read_c_str t.mem (t.regs.arg 1) 4096) = true →
      (rec_process_open bl t).regs.syscall_result = (2 ^ 64 - ENOENT) % 2 ^ 64 ∧
      (rec_process_open bl t).mem = t.mem ∧
      (rec_process_open bl t).regs.arg = t.regs.arg) ∧
    (bl (read_c_str t.mem (t.regs.arg 1) 4096) = false → rec_process_open bl t = t) := by
  refine ⟨rfl, ?_, ?_⟩
  · intro hb
    unfold rec_process_open
    rw [if_pos hb]
    exact ⟨rfl, rfl, rfl⟩
  · intro hb
    unfold rec_process_open
    rw [if_neg (by simp [hb])]

/-- Closed instance of `c9_open_rewrite_at_exit` at the concrete blacklisted
path "/e". -/
theorem c9_witness :
    (rec_process_open (fun s => s == [47, 101])
        { regs := { arg := fun i => if i = 1 then 0x600 else 0, syscall_result := 3, sp := 0 },
          mem := fun a => if a = 0x600 then 47 else if a = 0x601 then 101 else 0,
          scratch_ptr := 0, scratch_size := 0 }).regs.syscall_result =
      (2 ^ 64 - ENOENT) % 2 ^ 64 := by
  exact ((c9_open_rewrite_at_exit (fun s => s == [47, 101])
    { regs := { arg := fun i => if i = 1 then 0x600 else 0, syscall_result := 3, sp := 0 },
      mem := fun a => if a = 0x600 then 47 else if a = 0x601 then 101 else 0,
      scratch_ptr := 0, scratch_size := 0 } {}).2.1 (by decide)).1

end RR
